import Mathlib

/-!
# OpenREALM `realm_io` importers

A shallow embedding of `realm_io/src/realm_io_lib/realm_import.cpp`
(`io::loadCameraFromYaml`, `io::loadTrajectoryFromTxtTUM`,
`io::loadSurfacePointsFromTxt`) together with theorems about the loaders.

Conventions of the embedding:

* a call of a C++ function has an `Outcome`: it returns a value, lets an
  exception escape, or has undefined behaviour (an out-of-bounds
  `std::vector::operator[]`, flowing off the end of a value-returning function);
* the file system is a function from paths to the contents of the files that
  can be opened;
* `double` is a type parameter `D`; the conversions `std::stoul`, `std::stod`
  and the arithmetic used on doubles are the fields of `StdLib D`, so that
  every theorem holds whatever these library functions compute;
* `cv::Mat` is the list of its rows, `std::unordered_map<uint64_t, _>` is a list
  of key/value entries with pairwise different keys.
-/

set_option maxRecDepth 100000

namespace realm

/-! ## Outcomes of a call -/

/-- The exceptions met in the loaders. The first three are the standard C++
exceptions raised by the source and by `std::stoul` / `std::stod`; the last
three are the failures the specification names for the camera configuration. -/
inductive Failure where
  | runtime_error (what : String)
  | invalid_argument (what : String)
  | out_of_range (what : String)
  | ConfigLoadError
  | FieldMissingOrInvalid (fieldName : String)
  | UnsupportedCameraType (type : String)
  deriving DecidableEq, Repr

/-- What a call of a C++ function does. -/
inductive Outcome (α : Type) where
  /-- the call returns `value` -/
  | returned (value : α)
  /-- the exception `e` leaves the call -/
  | thrown (e : Failure)
  /-- the call has undefined behaviour -/
  | undefined
  deriving DecidableEq, Repr

namespace Outcome

/-- Sequencing: the rest of the body runs only after a normal return. -/
def bind {α β : Type} : Outcome α → (α → Outcome β) → Outcome β
  | returned a, f => f a
  | thrown e, _ => thrown e
  | undefined, _ => undefined

instance : Monad Outcome where
  pure := returned
  bind := bind

end Outcome

/-! ## Library functions used by the loaders -/

/-- The two ways `std::stoul` / `std::stod` fail. -/
inductive ConvError where
  | noConversion
  | outOfRange
  deriving DecidableEq, Repr

/-- The part of the C++ standard library (and of arithmetic on `double`) the
loaders call, over the type `D` of doubles. -/
structure StdLib (D : Type) where
  /-- `std::stoul(s)` -/
  stoul : String → Except ConvError Nat
  /-- `std::stod(s)` -/
  stod : String → Except ConvError D
  /-- the literal `0.0` -/
  zero : D
  /-- `Scalar(1)` -/
  one : D
  /-- `Scalar(2)` -/
  two : D
  add : D → D → D
  sub : D → D → D
  mul : D → D → D

/-- A conversion's failure becomes the exception the library throws, whose
message is the name of the function. -/
def conv {α : Type} (fn : String) : Except ConvError α → Outcome α
  | .ok a => .returned a
  | .error .noConversion => .thrown (.invalid_argument fn)
  | .error .outOfRange => .thrown (.out_of_range fn)

/-- `tokens[i]` on a `std::vector<std::string>`: undefined behaviour when `i`
is not below `tokens.size()`. -/
def vecAt (tokens : List String) (i : Nat) : Outcome String :=
  match tokens[i]? with
  | some t => .returned t
  | none => .undefined

/-- `str.c_str()` read as a C string: the characters before the first NUL. -/
def c_str (str : String) : String :=
  String.mk (str.data.takeWhile (fun ch => ch ≠ Char.ofNat 0))

/-- The files that can be opened, with their contents. -/
abbrev FileSystem := String → Option String

/-- Worker of `getlines`: `cur` holds the characters of the current line,
last one first. -/
def getlinesAux : List Char → List Char → List String
  | [], cur => if cur.isEmpty then [] else [String.mk cur.reverse]
  | ch :: rest, cur =>
    if ch = '\n' then String.mk cur.reverse :: getlinesAux rest []
    else getlinesAux rest (ch :: cur)

/-- The strings that successive `std::getline(file, str)` calls yield until
the call fails: the text between line feeds, and a last line without a line feed
when it is not empty. -/
def getlines (content : String) : List String :=
  getlinesAux content.data []

/-! ## The tokenizer -/

/-- Worker of `split`: `cur` holds the characters of the current token, last
one first. -/
def splitAux (c : Char) : List Char → List Char → List String
  | [], cur => if cur.isEmpty then [] else [String.mk cur.reverse]
  | ch :: rest, cur =>
    if ch = c then
      (if cur.isEmpty then splitAux c rest [] else String.mk cur.reverse :: splitAux c rest [])
    else splitAux c rest (ch :: cur)

/-- Modelled from the spec: `io::split(str, c)`, which is not in
`realm_import.cpp`. "Given a line of text and a single delimiter character,
produce an ordered sequence of non-empty substrings split on that delimiter
(contiguous runs of the delimiter collapse; leading/trailing delimiters produce
no empty tokens)"; an empty line gives the empty sequence. -/
def split (str : String) (c : Char) : List String :=
  splitAux c str.data []

/-! ## Matrices, maps, quaternions -/

/-- A `cv::Mat` of doubles: its rows, first row first. -/
abbrev Mat (D : Type) := List (List D)

/-- Entry `(i, j)` of a matrix. -/
def Mat.entry {D : Type} (m : Mat D) (i j : Nat) : Option D :=
  m[i]?.bind (fun row => row[j]?)

/-- `m.push_back(pt)`: the rows of `pt` are appended below those of `m`. -/
def Mat.push_back {D : Type} (m pt : Mat D) : Mat D := m ++ pt

/-- A `std::unordered_map<uint64_t, V>`: its entries. The order of the entries
carries no meaning. -/
abbrev UMap (V : Type) := List (Nat × V)

/-- `m[k] = v`: the entry of key `k` is overwritten when there is one, added
otherwise. -/
def UMap.assign {V : Type} : UMap V → Nat → V → UMap V
  | [], k, v => [(k, v)]
  | (k', v') :: rest, k, v =>
    if k' = k then (k, v) :: rest else (k', v') :: UMap.assign rest k v

/-- `m.size()` -/
def UMap.size {V : Type} (m : UMap V) : Nat := m.length

/-- `m.find(k)`: the value stored under `k`, if any. -/
def UMap.find {V : Type} : UMap V → Nat → Option V
  | [], _ => none
  | (k', v') :: rest, k => if k' = k then some v' else UMap.find rest k

/-- The keys of the entries. -/
def UMap.keys {V : Type} (m : UMap V) : List Nat := m.map Prod.fst

/-- An `Eigen::Quaterniond`; the constructor takes the scalar part `w` first,
as `Eigen::Quaterniond(w, x, y, z)` does. -/
structure Quaternion (D : Type) where
  w : D
  x : D
  y : D
  z : D

/-- An `Eigen::Matrix3d`; `R i j` is the coefficient `R(i, j)`. -/
abbrev Matrix3 (D : Type) := Matrix (Fin 3) (Fin 3) D

/-- `Eigen::Quaterniond::toRotationMatrix()` as Eigen computes it (no
normalisation of the quaternion). -/
def Quaternion.toRotationMatrix {D : Type} (sl : StdLib D) (q : Quaternion D) : Matrix3 D :=
  let tx := sl.mul sl.two q.x
  let ty := sl.mul sl.two q.y
  let tz := sl.mul sl.two q.z
  let twx := sl.mul tx q.w
  let twy := sl.mul ty q.w
  let twz := sl.mul tz q.w
  let txx := sl.mul tx q.x
  let txy := sl.mul ty q.x
  let txz := sl.mul tz q.x
  let tyy := sl.mul ty q.y
  let tyz := sl.mul tz q.y
  let tzz := sl.mul tz q.z
  !![sl.sub sl.one (sl.add tyy tzz), sl.sub txy twz, sl.add txz twy;
     sl.add txy twz, sl.sub sl.one (sl.add txx tzz), sl.sub tyz twx;
     sl.sub txz twy, sl.add tyz twx, sl.sub sl.one (sl.add txx tyy)]

/-! ## Camera model and camera settings -/

/-- Modelled from the spec: `camera::Pinhole`, declared outside
`realm_import.cpp`. "Fields `fx, fy, cx, cy`, `width, height` (unsigned
integers), and a distortion vector `(k1, k2, p1, p2, k3)`". -/
structure Pinhole (D : Type) where
  fx : D
  fy : D
  cx : D
  cy : D
  width : Nat
  height : Nat
  /-- the distortion vector `(k1, k2, p1, p2, k3)` -/
  distortion : List D

/-- Modelled from the spec: the constructor
`camera::Pinhole(fx, fy, cx, cy, width, height)`; "distortion is always present
(possibly all-zero) once a model is constructed". -/
def Pinhole.create {D : Type} (sl : StdLib D) (fx fy cx cy : D) (width height : Nat) : Pinhole D :=
  ⟨fx, fy, cx, cy, width, height, [sl.zero, sl.zero, sl.zero, sl.zero, sl.zero]⟩

/-- Modelled from the spec: `cam.setDistortionMap(k1, k2, p1, p2, k3)` stores
the five coefficients as the distortion vector of the model. -/
def Pinhole.setDistortionMap {D : Type} (cam : Pinhole D) (k1 k2 p1 p2 k3 : D) : Pinhole D :=
  { cam with distortion := [k1, k2, p1, p2, k3] }

/-- Modelled from the spec: the loaded configuration (`CameraSettings`), "an
untyped key/value bag" behind the capability interface `getString(key)`,
`getDouble(key)`, `getInt(key)`; a lookup gives nothing when the field is
missing or of another type. -/
structure CameraSettings (D : Type) where
  getString : String → Option String
  getDouble : String → Option D
  getInt : String → Option Int

/-- Modelled from the spec: a read of a required field; "missing or wrong-typed
required field → `FieldMissingOrInvalid(fieldName)`". -/
def required {α : Type} (lookup : String → Option α) (key : String) : Outcome α :=
  match lookup key with
  | some v => .returned v
  | none => .thrown (.FieldMissingOrInvalid key)

/-- Modelled from the spec: `CameraSettingsFactory::load(filepath)`, the
config-loading collaborator; "config source missing/unreadable →
`ConfigLoadError`". `configs` gives the configuration stored at each readable
path. -/
def CameraSettingsFactory.load {D : Type} (configs : String → Option (CameraSettings D))
    (filepath : String) : Outcome (CameraSettings D) :=
  match configs filepath with
  | some settings => .returned settings
  | none => .thrown .ConfigLoadError

/-- The cast `(uint32_t)v` of an `int`. -/
def toUint32 (v : Int) : Nat := (v % 2 ^ 32).toNat

/-! ## The loaders -/

/-- `io::loadCameraFromYaml(filepath)`. The fields are read in the order in
which the source names them. When the type is not `"pinhole"` control reaches
the closing brace of a function that returns a `camera::Pinhole`, which is
undefined behaviour. -/
def loadCameraFromYaml {D : Type} (sl : StdLib D) (configs : String → Option (CameraSettings D))
    (filepath : String) : Outcome (Pinhole D) := do
  let settings ← CameraSettingsFactory.load configs filepath
  let ty ← required settings.getString "type"
  if ty = "pinhole" then
    let fx ← required settings.getDouble "fx"
    let fy ← required settings.getDouble "fy"
    let cx ← required settings.getDouble "cx"
    let cy ← required settings.getDouble "cy"
    let width ← required settings.getInt "width"
    let height ← required settings.getInt "height"
    let cam := Pinhole.create sl fx fy cx cy (toUint32 width) (toUint32 height)
    let k1 ← required settings.getDouble "k1"
    let k2 ← required settings.getDouble "k2"
    let p1 ← required settings.getDouble "p1"
    let p2 ← required settings.getDouble "p2"
    Outcome.returned (cam.setDistortionMap k1 k2 p1 p2 sl.zero)
  else
    Outcome.undefined

/-- `io::loadCameraFromYaml(directory, filename)` -/
def loadCameraFromYamlIn {D : Type} (sl : StdLib D) (configs : String → Option (CameraSettings D))
    (directory filename : String) : Outcome (Pinhole D) :=
  loadCameraFromYaml sl configs (directory ++ "/" ++ filename)

/-- The message of the exception thrown at line 62 of the source. -/
def trajectoryOpenMessage (filepath : String) : String :=
  "Error loading trajectory file from '" ++ filepath ++ "': Could not open file!"

/-- The message of the exception thrown at line 71 of the source. The quotes
around `+ (directory+filename) +` are escaped there, so the whole of it is one
string literal. -/
def trajectoryLineMessage : String :=
  "Error loading trajectory file from '\" + (directory+filename) + \"': Not enough arguments in line!"

/-- The body of the `while` loop of `io::loadTrajectoryFromTxtTUM` for the line
`str`, `result` being the map built so far. -/
def loadTrajectoryLine {D : Type} (sl : StdLib D) (result : UMap (Mat D)) (str : String) :
    Outcome (UMap (Mat D)) :=
  let tokens := split (c_str str) ' '
  if tokens.length < 7 then
    Outcome.thrown (.runtime_error trajectoryLineMessage)
  else do
    let timestamp := (← conv "stoul" (sl.stoul (← vecAt tokens 0))) % 2 ^ 64
    let x ← conv "stod" (sl.stod (← vecAt tokens 1))
    let y ← conv "stod" (sl.stod (← vecAt tokens 2))
    let z ← conv "stod" (sl.stod (← vecAt tokens 3))
    let qx ← conv "stod" (sl.stod (← vecAt tokens 4))
    let qy ← conv "stod" (sl.stod (← vecAt tokens 5))
    let qz ← conv "stod" (sl.stod (← vecAt tokens 6))
    let qw ← conv "stod" (sl.stod (← vecAt tokens 7))
    let quat : Quaternion D := Quaternion.mk qw qx qy qz
    let R_eigen := quat.toRotationMatrix sl
    let pose : Mat D :=
      [[R_eigen 0 0, R_eigen 0 1, R_eigen 0 2, x],
       [R_eigen 1 0, R_eigen 1 1, R_eigen 1 2, y],
       [R_eigen 2 0, R_eigen 2 1, R_eigen 2 2, z]]
    Outcome.returned (result.assign timestamp pose)

/-- The `while (std::getline(file, str))` loop of `io::loadTrajectoryFromTxtTUM`
over the lines still to be read. -/
def loadTrajectoryLoop {D : Type} (sl : StdLib D) : List String → UMap (Mat D) → Outcome (UMap (Mat D))
  | [], result => .returned result
  | str :: rest, result => do
    let result ← loadTrajectoryLine sl result str
    loadTrajectoryLoop sl rest result

/-- `io::loadTrajectoryFromTxtTUM(filepath)` -/
def loadTrajectoryFromTxtTUM {D : Type} (sl : StdLib D) (fs : FileSystem) (filepath : String) :
    Outcome (UMap (Mat D)) :=
  match fs filepath with
  | none => .thrown (.runtime_error (trajectoryOpenMessage filepath))
  | some content => loadTrajectoryLoop sl (getlines content) []

/-- `io::loadTrajectoryFromTxtTUM(directory, filename)` -/
def loadTrajectoryFromTxtTUMIn {D : Type} (sl : StdLib D) (fs : FileSystem)
    (directory filename : String) : Outcome (UMap (Mat D)) :=
  loadTrajectoryFromTxtTUM sl fs (directory ++ "/" ++ filename)

/-- The message of the exception thrown at line 104 of the source. -/
def surfaceOpenMessage (filepath : String) : String :=
  "Error loading surface point file from '" ++ filepath ++ "': Could not open file!"

/-- The message of the exception thrown at line 113 of the source. -/
def surfaceLineMessage (filepath : String) : String :=
  "Error loading surface point file from '" ++ filepath ++ "': Not enough arguments in line!"

/-- The body of the `while` loop of `io::loadSurfacePointsFromTxt` for the line
`str`, `points` being the matrix built so far. -/
def loadSurfaceLine {D : Type} (sl : StdLib D) (filepath : String) (points : Mat D) (str : String) :
    Outcome (Mat D) :=
  let tokens := split (c_str str) ' '
  if tokens.length < 2 then
    Outcome.thrown (.runtime_error (surfaceLineMessage filepath))
  else do
    let x ← conv "stod" (sl.stod (← vecAt tokens 0))
    let y ← conv "stod" (sl.stod (← vecAt tokens 1))
    let z ← conv "stod" (sl.stod (← vecAt tokens 2))
    let pt : Mat D := [[x, y, z]]
    Outcome.returned (points.push_back pt)

/-- The `while (std::getline(file, str))` loop of `io::loadSurfacePointsFromTxt`
over the lines still to be read. -/
def loadSurfaceLoop {D : Type} (sl : StdLib D) (filepath : String) :
    List String → Mat D → Outcome (Mat D)
  | [], points => .returned points
  | str :: rest, points => do
    let points ← loadSurfaceLine sl filepath points str
    loadSurfaceLoop sl filepath rest points

/-- `io::loadSurfacePointsFromTxt(filepath)` -/
def loadSurfacePointsFromTxt {D : Type} (sl : StdLib D) (fs : FileSystem) (filepath : String) :
    Outcome (Mat D) :=
  match fs filepath with
  | none => .thrown (.runtime_error (surfaceOpenMessage filepath))
  | some content => loadSurfaceLoop sl filepath (getlines content) []

/-! ## A concrete instance for evaluation -/

/-- Value of a string of decimal digits, `none` when another character occurs. -/
def digitsValue : List Char → Nat → Option Nat
  | [], acc => some acc
  | ch :: rest, acc =>
    if ch.isDigit then digitsValue rest (10 * acc + (ch.toNat - 48)) else none

/-- Reads an unsigned decimal integer literal. -/
def readNat (s : String) : Except ConvError Nat :=
  match s.data with
  | [] => .error .noConversion
  | ch :: rest =>
    match digitsValue (ch :: rest) 0 with
    | some n => .ok n
    | none => .error .noConversion

/-- The digits after a decimal point are all `0` (there may be none). -/
def zeroFraction : List Char → Bool
  | [] => true
  | ch :: rest => ch = '0' && zeroFraction rest

/-- Reads a decimal literal whose value is an integer: an optional minus sign,
digits, and optionally a point followed by zeros, as in `-12`, `7` or `1.0`. -/
def readInt (s : String) : Except ConvError Int :=
  let negative := s.data.head? = some '-'
  let body := if negative then s.data.drop 1 else s.data
  let whole := body.takeWhile (fun ch => ch ≠ '.')
  let fraction := (body.dropWhile (fun ch => ch ≠ '.')).drop 1
  match readNat (String.mk whole) with
  | .ok n =>
    if zeroFraction fraction then .ok (if negative then -(n : Int) else (n : Int))
    else .error .noConversion
  | .error e => .error e

/-- An instance of the library with exact integer arithmetic, on which the
loaders can be evaluated: numbers are integers, `stoul` reads a string of
decimal digits and `stod` a decimal literal whose value is an integer. On these
strings they give the value the C++ functions give (when a `double`,
respectively an `unsigned long`, holds it exactly); every other string is
refused. -/
def intLib : StdLib Int where
  stoul := fun s =>
    match readNat s with
    | .ok n => if n < 2 ^ 64 then .ok n else .error .outOfRange
    | .error e => .error e
  stod := readInt
  zero := 0
  one := 1
  two := 2
  add := fun a b => a + b
  sub := fun a b => a - b
  mul := fun a b => a * b

/-- A file system with a few files. -/
def demoFs : FileSystem := fun path =>
  if path = "data/traj.txt" then some "10 1 2 3 0 0 0 1\n20 4 5 6 1 0 0 0\n"
  else if path = "data/points.txt" then some "4 5 6\n1.0 2.0 3.0"
  else if path = "data/dup.txt" then some "7 1 1 1 0 0 0 1\n8 0 0 0 0 0 0 1\n7 2 2 2 0 0 0 1\n"
  else if path = "data/seven.txt" then some "1 0 0 0 0 0 0\n"
  else if path = "data/short.txt" then some "1 2 3\n"
  else if path = "data/one.txt" then some "1\n"
  else if path = "data/two.txt" then some "1 2\n"
  else if path = "data/blank.txt" then some "4 5 6\n\n1.0 2.0 3.0"
  else if path = "data/trailing.txt" then some "10 1 2 3 0 0 0 1\n\n"
  else if path = "data/broken.txt" then some "10 1 2 3 0 0 0 1\n20 4 5\n30 7 8 9 0 0 0 1\n"
  else if path = "data/scaled.txt" then some "1 0 0 0 0 0 0 2\n"
  else if path = "data/tilted.txt" then some "1 0 0 0 1 0 0 1\n"
  else none

/-- The files `data/traj.txt` and `data/points.txt` of `demoFs` with further
tokens appended to each of their lines. -/
def demoFsExtra : FileSystem := fun path =>
  if path = "data/traj.txt" then
    some "10 1 2 3 0 0 0 1 extra tokens\n20 4 5 6 1 0 0 0 99\n"
  else if path = "data/points.txt" then some "4 5 6 7\n1.0 2.0 3.0 # last"
  else none

/-- A pinhole configuration. -/
def pinholeSettings : CameraSettings Int where
  getString := fun key => if key = "type" then some "pinhole" else none
  getDouble := fun key =>
    if key = "fx" then some 500 else if key = "fy" then some 501
    else if key = "cx" then some 320 else if key = "cy" then some 240
    else if key = "k1" then some 1 else if key = "k2" then some 2
    else if key = "p1" then some 3 else if key = "p2" then some 4 else none
  getInt := fun key =>
    if key = "width" then some 640 else if key = "height" then some 480 else none

/-- The same configuration declaring the type `spherical`. -/
def sphericalSettings : CameraSettings Int :=
  { pinholeSettings with
    getString := fun key => if key = "type" then some "spherical" else none }

/-- Two readable configuration sources. -/
def demoConfigs : String → Option (CameraSettings Int) := fun path =>
  if path = "cam/pinhole.yaml" then some pinholeSettings
  else if path = "cam/spherical.yaml" then some sphericalSettings
  else none

/-- The path convention in the words of the specification: directory and
filename joined with a `/` separator, nothing else changed. -/
def joinPath (directory filename : String) : String :=
  String.mk (directory.data ++ '/' :: filename.data)

/-! ## Well-formed lines -/

/-- Token `i` read by `std::stoul`, when there is such a token and it converts. -/
def tokenStoul {D : Type} (sl : StdLib D) (tokens : List String) (i : Nat) : Option Nat :=
  match tokens[i]? with
  | some t =>
    match sl.stoul t with
    | .ok n => some n
    | .error _ => none
  | none => none

/-- Token `i` read by `std::stod`, when there is such a token and it converts. -/
def tokenStod {D : Type} (sl : StdLib D) (tokens : List String) (i : Nat) : Option D :=
  match tokens[i]? with
  | some t =>
    match sl.stod t with
    | .ok v => some v
    | .error _ => none
  | none => none

/-- The raw pose record of a trajectory line. -/
structure TumRecord (D : Type) where
  timestamp : Nat
  x : D
  y : D
  z : D
  qx : D
  qy : D
  qz : D
  qw : D

/-- The tokens `timestamp x y z qx qy qz qw` at indices 0 to 7 convert to the
fields of `r` (the timestamp as a `uint64_t`). -/
def ReadsTum {D : Type} (sl : StdLib D) (tokens : List String) (r : TumRecord D) : Prop :=
  (tokenStoul sl tokens 0).map (fun n => n % 2 ^ 64) = some r.timestamp ∧
  tokenStod sl tokens 1 = some r.x ∧
  tokenStod sl tokens 2 = some r.y ∧
  tokenStod sl tokens 3 = some r.z ∧
  tokenStod sl tokens 4 = some r.qx ∧
  tokenStod sl tokens 5 = some r.qy ∧
  tokenStod sl tokens 6 = some r.qz ∧
  tokenStod sl tokens 7 = some r.qw

/-- A well-formed trajectory line: exactly 8 tokens, all numeric; `r` is the
record it carries. -/
def WellFormedTum {D : Type} (sl : StdLib D) (line : String) (r : TumRecord D) : Prop :=
  (split (c_str line) ' ').length = 8 ∧ ReadsTum sl (split (c_str line) ' ') r

/-- The tokens `x y z` at indices 0 to 2 convert to the components of `p`. -/
def ReadsPoint {D : Type} (sl : StdLib D) (tokens : List String) (p : D × D × D) : Prop :=
  tokenStod sl tokens 0 = some p.1 ∧
  tokenStod sl tokens 1 = some p.2.1 ∧
  tokenStod sl tokens 2 = some p.2.2

/-- A well-formed point line: exactly 3 tokens, all numeric; `p` is the point
it carries. -/
def WellFormedPoint {D : Type} (sl : StdLib D) (line : String) (p : D × D × D) : Prop :=
  (split (c_str line) ' ').length = 3 ∧ ReadsPoint sl (split (c_str line) ' ') p

instance {D : Type} [DecidableEq D] (sl : StdLib D) (tokens : List String) (r : TumRecord D) :
    Decidable (ReadsTum sl tokens r) := by
  unfold ReadsTum; infer_instance

instance {D : Type} [DecidableEq D] (sl : StdLib D) (line : String) (r : TumRecord D) :
    Decidable (WellFormedTum sl line r) := by
  unfold WellFormedTum; infer_instance

instance {D : Type} [DecidableEq D] (sl : StdLib D) (tokens : List String) (p : D × D × D) :
    Decidable (ReadsPoint sl tokens p) := by
  unfold ReadsPoint; infer_instance

instance {D : Type} [DecidableEq D] (sl : StdLib D) (line : String) (p : D × D × D) :
    Decidable (WellFormedPoint sl line p) := by
  unfold WellFormedPoint; infer_instance

/-- The pose assembled from a record: rotation block from the quaternion
`(qw, qx, qy, qz)`, translation in column 3. -/
def TumRecord.pose {D : Type} (sl : StdLib D) (r : TumRecord D) : Mat D :=
  let R := (Quaternion.mk r.qw r.qx r.qy r.qz).toRotationMatrix sl
  [[R 0 0, R 0 1, R 0 2, r.x], [R 1 0, R 1 1, R 1 2, r.y], [R 2 0, R 2 1, R 2 2, r.z]]

/-- The map after the records `rs` have been stored one after the other. -/
def storeAll {D : Type} (sl : StdLib D) (rs : List (TumRecord D)) (m : UMap (Mat D)) : UMap (Mat D) :=
  rs.foldl (fun acc r => acc.assign r.timestamp (r.pose sl)) m

/-- The row stored for a point. -/
def pointRow {D : Type} (p : D × D × D) : List D := [p.1, p.2.1, p.2.2]

/-! ## Exact arithmetic and the textbook rotation matrix -/

/-- The arithmetic of `sl` is the arithmetic of the commutative ring `inst`. -/
def StdLib.Exact {D : Type} (sl : StdLib D) (inst : CommRing D) : Prop :=
  sl.one = 1 ∧ sl.two = 2 ∧ sl.zero = 0 ∧
  (∀ a b, sl.add a b = a + b) ∧ (∀ a b, sl.sub a b = a - b) ∧ (∀ a b, sl.mul a b = a * b)

/-- The facts about `0.0`, `1.0` and `2.0` that the conversion of the identity
quaternion uses. They hold for IEEE 754 doubles and in every ring. -/
def StdLib.ZeroOne {D : Type} (sl : StdLib D) : Prop :=
  sl.mul sl.two sl.zero = sl.zero ∧ sl.mul sl.zero sl.one = sl.zero ∧
  sl.mul sl.zero sl.zero = sl.zero ∧ sl.add sl.zero sl.zero = sl.zero ∧
  sl.sub sl.one sl.zero = sl.one ∧ sl.sub sl.zero sl.zero = sl.zero

/-- The rotation matrix of the quaternion `w + x i + y j + z k` as the standard
formula writes it. -/
def standardRotation {R : Type} [CommRing R] (w x y z : R) : Matrix (Fin 3) (Fin 3) R :=
  !![1 - 2 * (y * y + z * z), 2 * (x * y - z * w), 2 * (x * z + y * w);
     2 * (x * y + z * w), 1 - 2 * (x * x + z * z), 2 * (y * z - x * w);
     2 * (x * z - y * w), 2 * (y * z + x * w), 1 - 2 * (x * x + y * y)]

/-- `needle` occurs in `text` as a contiguous substring. -/
def Contains (text needle : String) : Prop := needle.data <:+: text.data

instance (text needle : String) : Decidable (Contains text needle) := by
  unfold Contains; infer_instance

/-! ## Lemmas on outcomes and on the containers -/

@[simp] theorem Outcome.returned_bind {α β : Type} (a : α) (f : α → Outcome β) :
    (Outcome.returned a >>= f) = f a := rfl

@[simp] theorem Outcome.thrown_bind {α β : Type} (e : Failure) (f : α → Outcome β) :
    (Outcome.thrown e >>= f) = Outcome.thrown e := rfl

@[simp] theorem Outcome.undefined_bind {α β : Type} (f : α → Outcome β) :
    ((Outcome.undefined : Outcome α) >>= f) = Outcome.undefined := rfl

theorem vecAt_of_tokenStod {D : Type} {sl : StdLib D} {tokens : List String} {i : Nat} {v : D}
    (h : tokenStod sl tokens i = some v) :
    ∃ t, vecAt tokens i = .returned t ∧ conv "stod" (sl.stod t) = .returned v := by
  unfold tokenStod at h
  cases hg : tokens[i]? with
  | none => simp [hg] at h
  | some t =>
    rw [hg] at h
    refine ⟨t, by simp [vecAt, hg], ?_⟩
    cases hs : sl.stod t with
    | ok w => simp [hs] at h; simp [conv, h]
    | error e => simp [hs] at h

theorem vecAt_of_tokenStoul {D : Type} {sl : StdLib D} {tokens : List String} {i : Nat} {n : Nat}
    (h : tokenStoul sl tokens i = some n) :
    ∃ t, vecAt tokens i = .returned t ∧ conv "stoul" (sl.stoul t) = .returned n := by
  unfold tokenStoul at h
  cases hg : tokens[i]? with
  | none => simp [hg] at h
  | some t =>
    rw [hg] at h
    refine ⟨t, by simp [vecAt, hg], ?_⟩
    cases hs : sl.stoul t with
    | ok w => simp [hs] at h; simp [conv, h]
    | error e => simp [hs] at h

theorem length_of_tokenStod {D : Type} {sl : StdLib D} {tokens : List String} {i : Nat} {v : D}
    (h : tokenStod sl tokens i = some v) : i < tokens.length := by
  unfold tokenStod at h
  cases hg : tokens[i]? with
  | none => simp [hg] at h
  | some t =>
    by_contra hlt
    have : tokens[i]? = none := List.getElem?_eq_none (Nat.le_of_not_lt hlt)
    rw [this] at hg
    cases hg

/-- One iteration of the trajectory loop on a line whose first 8 tokens
convert. -/
theorem loadTrajectoryLine_reads {D : Type} (sl : StdLib D) (m : UMap (Mat D)) (line : String)
    (r : TumRecord D) (h : ReadsTum sl (split (c_str line) ' ') r) :
    loadTrajectoryLine sl m line = .returned (m.assign r.timestamp (r.pose sl)) := by
  obtain ⟨h0, h1, h2, h3, h4, h5, h6, h7⟩ := h
  have hlen := length_of_tokenStod h7
  cases hn : tokenStoul sl (split (c_str line) ' ') 0 with
  | none => simp [hn] at h0
  | some n =>
    rw [hn] at h0
    simp only [Option.map_some', Option.some.injEq] at h0
    obtain ⟨s0, hv0, hc0⟩ := vecAt_of_tokenStoul hn
    obtain ⟨s1, hv1, hc1⟩ := vecAt_of_tokenStod h1
    obtain ⟨s2, hv2, hc2⟩ := vecAt_of_tokenStod h2
    obtain ⟨s3, hv3, hc3⟩ := vecAt_of_tokenStod h3
    obtain ⟨s4, hv4, hc4⟩ := vecAt_of_tokenStod h4
    obtain ⟨s5, hv5, hc5⟩ := vecAt_of_tokenStod h5
    obtain ⟨s6, hv6, hc6⟩ := vecAt_of_tokenStod h6
    obtain ⟨s7, hv7, hc7⟩ := vecAt_of_tokenStod h7
    have hnot : ¬ (split (c_str line) ' ').length < 7 := by omega
    simp only [loadTrajectoryLine, hnot, if_false, hv0, hc0, hv1, hc1, hv2, hc2, hv3, hc3,
      hv4, hc4, hv5, hc5, hv6, hc6, hv7, hc7, Outcome.returned_bind, h0, TumRecord.pose]

/-- The trajectory loop on lines whose first 8 tokens convert stores their
records in file order. -/
theorem loadTrajectoryLoop_reads {D : Type} (sl : StdLib D) (lines : List String)
    (rs : List (TumRecord D))
    (h : List.Forall₂ (fun line r => ReadsTum sl (split (c_str line) ' ') r) lines rs)
    (m : UMap (Mat D)) :
    loadTrajectoryLoop sl lines m = .returned (storeAll sl rs m) := by
  induction h generalizing m with
  | nil => rfl
  | cons hd _ ih =>
    simp only [loadTrajectoryLoop, loadTrajectoryLine_reads sl m _ _ hd, Outcome.returned_bind, ih]
    rfl

theorem forall₂_reads_of_wellFormed {D : Type} (sl : StdLib D) {lines : List String}
    {rs : List (TumRecord D)} (h : List.Forall₂ (WellFormedTum sl) lines rs) :
    List.Forall₂ (fun line r => ReadsTum sl (split (c_str line) ' ') r) lines rs :=
  h.imp (fun _ _ hw => hw.2)

theorem UMap.find_assign {V : Type} (m : UMap V) (k k' : Nat) (v : V) :
    (m.assign k v).find k' = if k = k' then some v else m.find k' := by
  induction m with
  | nil => simp [UMap.assign, UMap.find]
  | cons e rest ih =>
    obtain ⟨a, b⟩ := e
    by_cases hak : a = k
    · subst hak
      by_cases hak' : a = k' <;> simp [UMap.assign, UMap.find, hak']
    · by_cases hak' : a = k'
      · subst hak'
        have : ¬ k = a := fun h => hak h.symm
        simp [UMap.assign, UMap.find, hak, this]
      · simp [UMap.assign, UMap.find, hak, hak', ih]

theorem UMap.mem_keys_assign {V : Type} (m : UMap V) (k k' : Nat) (v : V) :
    k' ∈ (m.assign k v).keys ↔ k' = k ∨ k' ∈ m.keys := by
  induction m with
  | nil => simp [UMap.assign, UMap.keys]
  | cons e rest ih =>
    obtain ⟨a, b⟩ := e
    by_cases hak : a = k
    · subst hak
      simp [UMap.assign, UMap.keys]
    · simp only [UMap.keys] at ih
      simp only [UMap.assign, hak, if_false, UMap.keys, List.map_cons, List.mem_cons, ih]
      tauto

theorem UMap.nodup_keys_assign {V : Type} (m : UMap V) (k : Nat) (v : V)
    (h : m.keys.Nodup) : (m.assign k v).keys.Nodup := by
  induction m with
  | nil => simp [UMap.assign, UMap.keys]
  | cons e rest ih =>
    obtain ⟨a, b⟩ := e
    have hcons : a ∉ UMap.keys rest ∧ (UMap.keys rest).Nodup := by
      simpa [UMap.keys] using h
    by_cases hak : a = k
    · subst hak
      simpa [UMap.assign, UMap.keys] using h
    · have hmem := UMap.mem_keys_assign rest k a v
      have hnot : a ∉ (UMap.assign rest k v).keys := by
        rw [hmem]
        rintro (h1 | h2)
        · exact hak h1
        · exact hcons.1 h2
      have ih' := ih hcons.2
      simp only [UMap.assign, hak, if_false]
      simp only [UMap.keys, List.map_cons, List.nodup_cons]
      exact ⟨hnot, ih'⟩

theorem UMap.size_assign_of_not_mem {V : Type} (m : UMap V) (k : Nat) (v : V)
    (h : k ∉ m.keys) : (m.assign k v).size = m.size + 1 := by
  induction m with
  | nil => simp [UMap.assign, UMap.size]
  | cons e rest ih =>
    obtain ⟨a, b⟩ := e
    have hak : ¬ a = k := by
      intro hh
      apply h
      simp [UMap.keys, hh]
    have hrest : k ∉ UMap.keys rest := by
      intro hh
      apply h
      simp only [UMap.keys, List.map_cons, List.mem_cons]
      exact Or.inr hh
    have := ih hrest
    simp only [UMap.size] at this
    simp [UMap.assign, hak, UMap.size, this]

theorem UMap.size_assign_of_mem {V : Type} (m : UMap V) (k : Nat) (v : V)
    (h : k ∈ m.keys) : (m.assign k v).size = m.size := by
  induction m with
  | nil => simp [UMap.keys] at h
  | cons e rest ih =>
    obtain ⟨a, b⟩ := e
    by_cases hak : a = k
    · simp [UMap.assign, hak, UMap.size]
    · have hrest : k ∈ UMap.keys rest := by
        simp only [UMap.keys, List.map_cons, List.mem_cons] at h
        rcases h with h | h
        · exact absurd h.symm hak
        · exact h
      have := ih hrest
      simp only [UMap.size] at this
      simp [UMap.assign, hak, UMap.size, this]

theorem storeAll_cons {D : Type} (sl : StdLib D) (r : TumRecord D) (rs : List (TumRecord D))
    (m : UMap (Mat D)) :
    storeAll sl (r :: rs) m = storeAll sl rs (m.assign r.timestamp (r.pose sl)) := rfl

theorem storeAll_append {D : Type} (sl : StdLib D) (rs rs' : List (TumRecord D))
    (m : UMap (Mat D)) :
    storeAll sl (rs ++ rs') m = storeAll sl rs' (storeAll sl rs m) := by
  simp [storeAll, List.foldl_append]

theorem nodup_keys_storeAll {D : Type} (sl : StdLib D) (rs : List (TumRecord D))
    (m : UMap (Mat D)) (h : m.keys.Nodup) : (storeAll sl rs m).keys.Nodup := by
  induction rs generalizing m with
  | nil => exact h
  | cons r rs ih =>
    rw [storeAll_cons]
    exact ih _ (UMap.nodup_keys_assign m _ _ h)

theorem mem_keys_storeAll {D : Type} (sl : StdLib D) (rs : List (TumRecord D))
    (m : UMap (Mat D)) (t : Nat) :
    t ∈ (storeAll sl rs m).keys ↔ t ∈ rs.map (fun r => r.timestamp) ∨ t ∈ m.keys := by
  induction rs generalizing m with
  | nil => simp [storeAll]
  | cons r rs ih =>
    rw [storeAll_cons, ih, UMap.mem_keys_assign]
    simp only [List.map_cons, List.mem_cons]
    tauto

/-- Storing records whose timestamps differ from `t` leaves the entry of `t`
as it was. -/
theorem find_storeAll_of_ne {D : Type} (sl : StdLib D) (rs : List (TumRecord D))
    (m : UMap (Mat D)) (t : Nat) (h : ∀ r ∈ rs, r.timestamp ≠ t) :
    (storeAll sl rs m).find t = m.find t := by
  induction rs generalizing m with
  | nil => rfl
  | cons r rs ih =>
    rw [storeAll_cons, ih _ (fun r' hr' => h r' (List.mem_cons_of_mem _ hr')),
      UMap.find_assign]
    simp [h r (List.mem_cons_self _ _)]

/-- Last write wins: the entry of a timestamp is the pose of the last record
that carries it. -/
theorem find_storeAll_last {D : Type} (sl : StdLib D) (pre post : List (TumRecord D))
    (r : TumRecord D) (m : UMap (Mat D)) (h : ∀ r' ∈ post, r'.timestamp ≠ r.timestamp) :
    (storeAll sl (pre ++ r :: post) m).find r.timestamp = some (r.pose sl) := by
  rw [storeAll_append, storeAll_cons, find_storeAll_of_ne sl post _ _ h, UMap.find_assign]
  simp

theorem size_storeAll_of_nodup {D : Type} (sl : StdLib D) (rs : List (TumRecord D))
    (m : UMap (Mat D)) (hnodup : (rs.map (fun r => r.timestamp)).Nodup)
    (hdisj : ∀ r ∈ rs, r.timestamp ∉ m.keys) :
    (storeAll sl rs m).size = m.size + rs.length := by
  induction rs generalizing m with
  | nil => rfl
  | cons r rs ih =>
    simp only [List.map_cons, List.nodup_cons] at hnodup
    rw [storeAll_cons, ih _ hnodup.2, UMap.size_assign_of_not_mem m _ _
      (hdisj r (List.mem_cons_self _ _))]
    · simp only [List.length_cons]; omega
    · intro r' hr' hmem
      rw [UMap.mem_keys_assign] at hmem
      rcases hmem with h1 | h2
      · apply hnodup.1
        rw [← h1]
        exact List.mem_map_of_mem _ hr'
      · exact hdisj r' (List.mem_cons_of_mem _ hr') h2

theorem entry_pose_rotation {D : Type} (sl : StdLib D) (r : TumRecord D) (i j : Fin 3) :
    (r.pose sl).entry i j =
      some ((Quaternion.mk r.qw r.qx r.qy r.qz).toRotationMatrix sl i j) := by
  fin_cases i <;> fin_cases j <;> rfl

/-- With exact arithmetic Eigen's computation is the standard formula. -/
theorem toRotationMatrix_eq_standardRotation {D : Type} (sl : StdLib D) (inst : CommRing D)
    (hex : sl.Exact inst) (q : Quaternion D) :
    q.toRotationMatrix sl = standardRotation q.w q.x q.y q.z := by
  obtain ⟨h1, h2, _, hadd, hsub, hmul⟩ := hex
  ext i j
  fin_cases i <;> fin_cases j <;>
    simp [Quaternion.toRotationMatrix, standardRotation, h1, h2, hadd, hsub, hmul] <;> ring

theorem intLib_exact : intLib.Exact Int.instCommRing :=
  ⟨rfl, rfl, rfl, fun _ _ => rfl, fun _ _ => rfl, fun _ _ => rfl⟩

/-- One iteration of the point loop on a line whose first 3 tokens convert. -/
theorem loadSurfaceLine_reads {D : Type} (sl : StdLib D) (filepath : String) (points : Mat D)
    (line : String) (p : D × D × D) (h : ReadsPoint sl (split (c_str line) ' ') p) :
    loadSurfaceLine sl filepath points line = .returned (points ++ [pointRow p]) := by
  obtain ⟨h0, h1, h2⟩ := h
  have hlen := length_of_tokenStod h2
  obtain ⟨s0, hv0, hc0⟩ := vecAt_of_tokenStod h0
  obtain ⟨s1, hv1, hc1⟩ := vecAt_of_tokenStod h1
  obtain ⟨s2, hv2, hc2⟩ := vecAt_of_tokenStod h2
  have hnot : ¬ (split (c_str line) ' ').length < 2 := by omega
  simp only [loadSurfaceLine, hnot, if_false, hv0, hc0, hv1, hc1, hv2, hc2,
    Outcome.returned_bind, Mat.push_back, pointRow]

/-- The point loop on lines whose first 3 tokens convert appends their points in
file order. -/
theorem loadSurfaceLoop_reads {D : Type} (sl : StdLib D) (filepath : String)
    (lines : List String) (ps : List (D × D × D))
    (h : List.Forall₂ (fun line p => ReadsPoint sl (split (c_str line) ' ') p) lines ps)
    (points : Mat D) :
    loadSurfaceLoop sl filepath lines points = .returned (points ++ ps.map pointRow) := by
  induction h generalizing points with
  | nil => simp [loadSurfaceLoop]
  | cons hd _ ih =>
    simp only [loadSurfaceLoop, loadSurfaceLine_reads sl filepath points _ _ hd,
      Outcome.returned_bind, ih]
    simp

theorem forall₂_getLast? {α β : Type} {R : α → β → Prop} {l₁ : List α} {l₂ : List β}
    (h : List.Forall₂ R l₁ l₂) {a : α} (ha : l₁.getLast? = some a) :
    ∃ b, l₂.getLast? = some b ∧ R a b := by
  induction h with
  | nil => simp at ha
  | @cons x y xs ys hxy hrest ih =>
    cases hrest with
    | nil =>
      simp only [List.getLast?_singleton, Option.some.injEq] at ha
      subst ha
      exact ⟨y, by simp, hxy⟩
    | @cons x' y' xs' ys' hxy' hrest' =>
      rw [List.getLast?_cons_cons] at ha
      obtain ⟨b, hb, hab⟩ := ih ha
      exact ⟨b, by rw [List.getLast?_cons_cons]; exact hb, hab⟩

theorem getlines_empty : getlines "" = [] := rfl

theorem required_some {α : Type} (lookup : String → Option α) (key : String) (v : α)
    (h : lookup key = some v) : required lookup key = .returned v := by
  simp [required, h]

/-- A configuration whose type is not `pinhole` takes the loader to the end of
the function body without a `return`. -/
theorem loadCameraFromYaml_other_type {D : Type} (sl : StdLib D)
    (configs : String → Option (CameraSettings D)) (filepath ty : String)
    (settings : CameraSettings D) (hload : configs filepath = some settings)
    (htype : settings.getString "type" = some ty) (hne : ty ≠ "pinhole") :
    loadCameraFromYaml sl configs filepath = Outcome.undefined := by
  simp [loadCameraFromYaml, CameraSettingsFactory.load, hload, required_some _ _ _ htype, hne]

/-- A line of exactly 7 tokens that all convert passes the length check and
then reads `tokens[7]`. -/
theorem loadTrajectoryLine_seven_tokens {D : Type} (sl : StdLib D) (m : UMap (Mat D))
    (line : String) (t0 t1 t2 t3 t4 t5 t6 : String) (n : Nat) (x y z qx qy qz : D)
    (htok : split (c_str line) ' ' = [t0, t1, t2, t3, t4, t5, t6])
    (h0 : sl.stoul t0 = .ok n) (h1 : sl.stod t1 = .ok x) (h2 : sl.stod t2 = .ok y)
    (h3 : sl.stod t3 = .ok z) (h4 : sl.stod t4 = .ok qx) (h5 : sl.stod t5 = .ok qy)
    (h6 : sl.stod t6 = .ok qz) :
    loadTrajectoryLine sl m line = Outcome.undefined := by
  simp [loadTrajectoryLine, htok, vecAt, conv, h0, h1, h2, h3, h4, h5, h6]

/-- A trajectory line of fewer than 7 tokens raises the exception of line 71,
whatever the conversions would do and whatever the path is. -/
theorem loadTrajectoryLine_short {D : Type} (sl : StdLib D) (m : UMap (Mat D)) (line : String)
    (h : (split (c_str line) ' ').length < 7) :
    loadTrajectoryLine sl m line = .thrown (.runtime_error trajectoryLineMessage) := by
  simp [loadTrajectoryLine, h]

/-- A point line of fewer than 2 tokens raises the exception of line 113. -/
theorem loadSurfaceLine_short {D : Type} (sl : StdLib D) (filepath : String) (points : Mat D)
    (line : String) (h : (split (c_str line) ' ').length < 2) :
    loadSurfaceLine sl filepath points line =
      .thrown (.runtime_error (surfaceLineMessage filepath)) := by
  simp [loadSurfaceLine, h]

theorem loadTrajectoryFromTxtTUM_of_lines {D : Type} (sl : StdLib D) (fs : FileSystem)
    (filepath content : String) (lines : List String) (hopen : fs filepath = some content)
    (hlines : getlines content = lines) :
    loadTrajectoryFromTxtTUM sl fs filepath = loadTrajectoryLoop sl lines [] := by
  simp only [loadTrajectoryFromTxtTUM, hopen, hlines]

theorem loadTrajectoryLoop_cons {D : Type} (sl : StdLib D) (str : String) (rest : List String)
    (m : UMap (Mat D)) :
    loadTrajectoryLoop sl (str :: rest) m =
      (loadTrajectoryLine sl m str >>= loadTrajectoryLoop sl rest) := rfl

theorem loadSurfacePointsFromTxt_of_lines {D : Type} (sl : StdLib D) (fs : FileSystem)
    (filepath content : String) (lines : List String) (hopen : fs filepath = some content)
    (hlines : getlines content = lines) :
    loadSurfacePointsFromTxt sl fs filepath = loadSurfaceLoop sl filepath lines [] := by
  simp only [loadSurfacePointsFromTxt, hopen, hlines]

theorem loadSurfaceLoop_cons {D : Type} (sl : StdLib D) (filepath str : String)
    (rest : List String) (points : Mat D) :
    loadSurfaceLoop sl filepath (str :: rest) points =
      (loadSurfaceLine sl filepath points str >>= loadSurfaceLoop sl filepath rest) := rfl

theorem contains_middle (a p b : String) : Contains (a ++ p ++ b) p :=
  ⟨a.data, b.data, by simp⟩

/-! ## The trajectory loader on well-formed files -/

/-- C1: when the file opens and consists of N well-formed lines (8 numeric
tokens `timestamp x y z qx qy qz qw`) with pairwise distinct timestamps,
`loadTrajectoryFromTxtTUM` returns a map with exactly N entries whose keys are
exactly the timestamps of the lines, and the pose stored under the timestamp of
each line is a 3x4 matrix whose column 3 is `(x, y, z)` of that line. -/
theorem loadTrajectoryFromTxtTUM_distinct_timestamps {D : Type} (sl : StdLib D)
    (fs : FileSystem) (filepath content : String) (rs : List (TumRecord D))
    (hopen : fs filepath = some content)
    (hlines : List.Forall₂ (WellFormedTum sl) (getlines content) rs)
    (hnodup : (rs.map (fun r => r.timestamp)).Nodup) :
    ∃ result, loadTrajectoryFromTxtTUM sl fs filepath = .returned result ∧
      result.size = (getlines content).length ∧
      result.keys.Nodup ∧
      (∀ t, t ∈ result.keys ↔ t ∈ rs.map (fun r => r.timestamp)) ∧
      ∀ r ∈ rs, ∃ pose, result.find r.timestamp = some pose ∧
        pose.length = 3 ∧ (∀ row ∈ pose, row.length = 4) ∧
        pose.entry 0 3 = some r.x ∧ pose.entry 1 3 = some r.y ∧ pose.entry 2 3 = some r.z := by
  refine ⟨storeAll sl rs [], ?_, ?_, ?_, ?_, ?_⟩
  · simp only [loadTrajectoryFromTxtTUM, hopen]
    exact loadTrajectoryLoop_reads sl _ rs (forall₂_reads_of_wellFormed sl hlines) []
  · rw [size_storeAll_of_nodup sl rs [] hnodup (by simp [UMap.keys]), hlines.length_eq]
    simp [UMap.size]
  · exact nodup_keys_storeAll sl rs [] (by simp [UMap.keys])
  · intro t
    rw [mem_keys_storeAll]
    simp [UMap.keys]
  · intro r hr
    obtain ⟨pre, post, hsplit⟩ := List.append_of_mem hr
    have hpost : ∀ r' ∈ post, r'.timestamp ≠ r.timestamp := by
      intro r' hr' heq
      rw [hsplit, List.map_append, List.map_cons, List.nodup_append] at hnodup
      have h2 := hnodup.2.1
      rw [List.nodup_cons] at h2
      apply h2.1
      rw [← heq]
      exact List.mem_map_of_mem _ hr'
    refine ⟨r.pose sl, ?_, ?_, ?_, ?_, ?_, ?_⟩
    · rw [hsplit]
      exact find_storeAll_last sl pre post r [] hpost
    · rfl
    · intro row hrow
      simp only [TumRecord.pose, List.mem_cons, List.mem_singleton, List.not_mem_nil,
        or_false] at hrow
      rcases hrow with h | h | h <;> rw [h] <;> rfl
    · rfl
    · rfl
    · rfl

/-- The hypotheses of C1 hold for the two-line file `data/traj.txt` of `demoFs`,
and the loader returns its two poses. -/
theorem loadTrajectoryFromTxtTUM_distinct_timestamps_witness :
    demoFs "data/traj.txt" = some "10 1 2 3 0 0 0 1\n20 4 5 6 1 0 0 0\n" ∧
    List.Forall₂ (WellFormedTum intLib) (getlines "10 1 2 3 0 0 0 1\n20 4 5 6 1 0 0 0\n")
      [⟨10, 1, 2, 3, 0, 0, 0, 1⟩, ⟨20, 4, 5, 6, 1, 0, 0, 0⟩] ∧
    ∃ result, loadTrajectoryFromTxtTUM intLib demoFs "data/traj.txt" = .returned result ∧
      result.size = 2 ∧
      (∀ t, t ∈ result.keys ↔ t = 10 ∨ t = 20) ∧
      (∃ pose, result.find 20 = some pose ∧ pose.entry 0 3 = some 4 ∧
        pose.entry 1 3 = some 5 ∧ pose.entry 2 3 = some 6) := by
  have hopen : demoFs "data/traj.txt" = some "10 1 2 3 0 0 0 1\n20 4 5 6 1 0 0 0\n" := by
    decide
  have hlines : List.Forall₂ (WellFormedTum intLib)
      (getlines "10 1 2 3 0 0 0 1\n20 4 5 6 1 0 0 0\n")
      [⟨10, 1, 2, 3, 0, 0, 0, 1⟩, ⟨20, 4, 5, 6, 1, 0, 0, 0⟩] :=
    List.Forall₂.cons (by decide) (List.Forall₂.cons (by decide) List.Forall₂.nil)
  refine ⟨hopen, hlines, ?_⟩
  obtain ⟨result, hres, hsize, _, hkeys, hposes⟩ :=
    loadTrajectoryFromTxtTUM_distinct_timestamps intLib demoFs "data/traj.txt" _
      [⟨10, 1, 2, 3, 0, 0, 0, 1⟩, ⟨20, 4, 5, 6, 1, 0, 0, 0⟩] hopen hlines (by decide)
  refine ⟨result, hres, ?_, ?_, ?_⟩
  · rw [hsize]; decide
  · intro t
    rw [hkeys]
    simp
  · obtain ⟨pose, hfind, _, _, h0, h1, h2⟩ := hposes ⟨20, 4, 5, 6, 1, 0, 0, 0⟩ (by simp)
    exact ⟨pose, hfind, h0, h1, h2⟩

/-- C2: in a file of well-formed lines, take a line that no later line of the
same timestamp overwrites. Columns 0-2 of the pose stored under its timestamp are
the rotation matrix of the quaternion whose scalar part `qw` is token 7 and whose
vector part `(qx, qy, qz)` is tokens 4, 5, 6, entry `(i, j)` of the rotation
matrix standing at row `i`, column `j` of the pose. The rotation matrix is the
one `Eigen::Quaterniond(qw, qx, qy, qz).toRotationMatrix()` computes, which in
exact arithmetic is the standard quaternion-to-rotation-matrix formula. -/
theorem loadTrajectoryFromTxtTUM_rotation_block {D : Type} (sl : StdLib D)
    (fs : FileSystem) (filepath content : String) (rs : List (TumRecord D))
    (hopen : fs filepath = some content)
    (hlines : List.Forall₂ (WellFormedTum sl) (getlines content) rs) :
    ∃ result, loadTrajectoryFromTxtTUM sl fs filepath = .returned result ∧
      ∀ pre r post, rs = pre ++ r :: post → (∀ r' ∈ post, r'.timestamp ≠ r.timestamp) →
        ∃ pose, result.find r.timestamp = some pose ∧
          (∀ i j : Fin 3, pose.entry i j =
            some ((Quaternion.mk r.qw r.qx r.qy r.qz).toRotationMatrix sl i j)) ∧
          (∀ inst : CommRing D, sl.Exact inst → ∀ i j : Fin 3, pose.entry i j =
            some (@standardRotation D inst r.qw r.qx r.qy r.qz i j)) := by
  refine ⟨storeAll sl rs [], ?_, ?_⟩
  · simp only [loadTrajectoryFromTxtTUM, hopen]
    exact loadTrajectoryLoop_reads sl _ rs (forall₂_reads_of_wellFormed sl hlines) []
  · intro pre r post hsplit hpost
    refine ⟨r.pose sl, ?_, entry_pose_rotation sl r, ?_⟩
    · rw [hsplit]
      exact find_storeAll_last sl pre post r [] hpost
    · intro inst hex i j
      rw [entry_pose_rotation, toRotationMatrix_eq_standardRotation sl inst hex]

/-- The hypotheses of C2 hold for the file `data/traj.txt` of `demoFs`; its
second line `20 4 5 6 1 0 0 0` has the quaternion `qw = 0`, `qx = 1`,
`qy = qz = 0`, and the rotation block stored under 20 is `diag(1, -1, -1)`. -/
theorem loadTrajectoryFromTxtTUM_rotation_block_witness :
    demoFs "data/traj.txt" = some "10 1 2 3 0 0 0 1\n20 4 5 6 1 0 0 0\n" ∧
    List.Forall₂ (WellFormedTum intLib) (getlines "10 1 2 3 0 0 0 1\n20 4 5 6 1 0 0 0\n")
      [⟨10, 1, 2, 3, 0, 0, 0, 1⟩, ⟨20, 4, 5, 6, 1, 0, 0, 0⟩] ∧
    ∃ result pose, loadTrajectoryFromTxtTUM intLib demoFs "data/traj.txt" = .returned result ∧
      result.find 20 = some pose ∧
      (∀ i j : Fin 3, pose.entry i j = some ((standardRotation 0 1 0 0 : Matrix3 Int) i j)) ∧
      (∀ i j : Fin 3, pose.entry i j = some ((!![1, 0, 0; 0, -1, 0; 0, 0, -1] : Matrix3 Int) i j)) := by
  have hopen : demoFs "data/traj.txt" = some "10 1 2 3 0 0 0 1\n20 4 5 6 1 0 0 0\n" := by
    decide
  have hlines : List.Forall₂ (WellFormedTum intLib)
      (getlines "10 1 2 3 0 0 0 1\n20 4 5 6 1 0 0 0\n")
      [⟨10, 1, 2, 3, 0, 0, 0, 1⟩, ⟨20, 4, 5, 6, 1, 0, 0, 0⟩] :=
    List.Forall₂.cons (by decide) (List.Forall₂.cons (by decide) List.Forall₂.nil)
  refine ⟨hopen, hlines, ?_⟩
  obtain ⟨result, hres, hall⟩ :=
    loadTrajectoryFromTxtTUM_rotation_block intLib demoFs "data/traj.txt" _
      [⟨10, 1, 2, 3, 0, 0, 0, 1⟩, ⟨20, 4, 5, 6, 1, 0, 0, 0⟩] hopen hlines
  obtain ⟨pose, hfind, _, hstd⟩ :=
    hall [⟨10, 1, 2, 3, 0, 0, 0, 1⟩] ⟨20, 4, 5, 6, 1, 0, 0, 0⟩ [] rfl (by simp)
  refine ⟨result, pose, hres, hfind, hstd Int.instCommRing intLib_exact, ?_⟩
  intro i j
  rw [hstd Int.instCommRing intLib_exact i j]
  fin_cases i <;> fin_cases j <;> rfl

/-- C3: in a file of well-formed lines let `line` be the last line with its
timestamp `t` (the lines after it carry other timestamps, the lines before it
any). The returned map has exactly one entry for `t`, and it is the pose that
the loop body builds from `line`. -/
theorem loadTrajectoryFromTxtTUM_last_write_wins {D : Type} (sl : StdLib D)
    (fs : FileSystem) (filepath content : String)
    (before after : List String) (line : String)
    (pre post : List (TumRecord D)) (r : TumRecord D)
    (hopen : fs filepath = some content)
    (hfile : getlines content = before ++ line :: after)
    (hbefore : List.Forall₂ (WellFormedTum sl) before pre)
    (hline : WellFormedTum sl line r)
    (hafter : List.Forall₂ (WellFormedTum sl) after post)
    (hlast : ∀ r' ∈ post, r'.timestamp ≠ r.timestamp) :
    ∃ result pose, loadTrajectoryFromTxtTUM sl fs filepath = .returned result ∧
      loadTrajectoryLine sl [] line = .returned [(r.timestamp, pose)] ∧
      result.find r.timestamp = some pose ∧
      result.keys.count r.timestamp = 1 := by
  have hall : List.Forall₂ (WellFormedTum sl) (before ++ line :: after) (pre ++ r :: post) :=
    List.rel_append hbefore (List.Forall₂.cons hline hafter)
  refine ⟨storeAll sl (pre ++ r :: post) [], r.pose sl, ?_, ?_, ?_, ?_⟩
  · simp only [loadTrajectoryFromTxtTUM, hopen, hfile]
    exact loadTrajectoryLoop_reads sl _ _ (forall₂_reads_of_wellFormed sl hall) []
  · rw [loadTrajectoryLine_reads sl [] line r hline.2]
    rfl
  · exact find_storeAll_last sl pre post r [] hlast
  · apply List.count_eq_one_of_mem (nodup_keys_storeAll sl _ [] (by simp [UMap.keys]))
    rw [mem_keys_storeAll]
    left
    simp

/-- The hypotheses of C3 hold for the file `data/dup.txt` of `demoFs`, whose
first and third lines both carry the timestamp 7: the map keeps one entry for 7,
the pose of the third line. -/
theorem loadTrajectoryFromTxtTUM_last_write_wins_witness :
    demoFs "data/dup.txt" = some "7 1 1 1 0 0 0 1\n8 0 0 0 0 0 0 1\n7 2 2 2 0 0 0 1\n" ∧
    getlines "7 1 1 1 0 0 0 1\n8 0 0 0 0 0 0 1\n7 2 2 2 0 0 0 1\n" =
      ["7 1 1 1 0 0 0 1", "8 0 0 0 0 0 0 1"] ++ "7 2 2 2 0 0 0 1" :: [] ∧
    WellFormedTum intLib "7 1 1 1 0 0 0 1" ⟨7, 1, 1, 1, 0, 0, 0, 1⟩ ∧
    WellFormedTum intLib "8 0 0 0 0 0 0 1" ⟨8, 0, 0, 0, 0, 0, 0, 1⟩ ∧
    WellFormedTum intLib "7 2 2 2 0 0 0 1" ⟨7, 2, 2, 2, 0, 0, 0, 1⟩ ∧
    ∃ result, loadTrajectoryFromTxtTUM intLib demoFs "data/dup.txt" = .returned result ∧
      result.find 7 = some [[1, 0, 0, 2], [0, 1, 0, 2], [0, 0, 1, 2]] ∧
      result.keys.count 7 = 1 := by
  have h1 : WellFormedTum intLib "7 1 1 1 0 0 0 1" ⟨7, 1, 1, 1, 0, 0, 0, 1⟩ := by decide
  have h2 : WellFormedTum intLib "8 0 0 0 0 0 0 1" ⟨8, 0, 0, 0, 0, 0, 0, 1⟩ := by decide
  have h3 : WellFormedTum intLib "7 2 2 2 0 0 0 1" ⟨7, 2, 2, 2, 0, 0, 0, 1⟩ := by decide
  refine ⟨by decide, by decide, h1, h2, h3, ?_⟩
  obtain ⟨result, pose, hres, hpose, hfind, hcount⟩ :=
    loadTrajectoryFromTxtTUM_last_write_wins intLib demoFs "data/dup.txt"
      "7 1 1 1 0 0 0 1\n8 0 0 0 0 0 0 1\n7 2 2 2 0 0 0 1\n"
      ["7 1 1 1 0 0 0 1", "8 0 0 0 0 0 0 1"] [] "7 2 2 2 0 0 0 1"
      [⟨7, 1, 1, 1, 0, 0, 0, 1⟩, ⟨8, 0, 0, 0, 0, 0, 0, 1⟩] [] ⟨7, 2, 2, 2, 0, 0, 0, 1⟩
      (by decide) (by decide)
      (List.Forall₂.cons h1 (List.Forall₂.cons h2 List.Forall₂.nil)) h3 List.Forall₂.nil
      (by simp)
  have hp : loadTrajectoryLine intLib [] "7 2 2 2 0 0 0 1" =
      .returned [(7, [[1, 0, 0, 2], [0, 1, 0, 2], [0, 0, 1, 2]])] := by decide
  rw [hp] at hpose
  have hpose' : pose = [[1, 0, 0, 2], [0, 1, 0, 2], [0, 0, 1, 2]] := by
    injection hpose with h
    injection h with h _
    injection h with _ h
    exact h.symm
  rw [hpose'] at hfind
  exact ⟨result, hres, hfind, hcount⟩

/-! ## The point loader on well-formed files -/

/-- C4: when the file opens and consists of N well-formed lines (N >= 0, three
numeric tokens `x y z` each), `loadSurfacePointsFromTxt` returns exactly N rows
of 3 values and row `i` is `(x, y, z)` of line `i`. In particular, when the last
line is `1.0 2.0 3.0` the last row holds the three values `std::stod` gives for
`1.0`, `2.0` and `3.0`, and an empty file gives an empty collection and no
failure. -/
theorem loadSurfacePointsFromTxt_rows {D : Type} (sl : StdLib D) (fs : FileSystem)
    (filepath content : String) (ps : List (D × D × D))
    (hopen : fs filepath = some content)
    (hlines : List.Forall₂ (WellFormedPoint sl) (getlines content) ps) :
    ∃ points, loadSurfacePointsFromTxt sl fs filepath = .returned points ∧
      points.length = (getlines content).length ∧
      (∀ row ∈ points, row.length = 3) ∧
      (∀ i, ∀ hi : i < ps.length,
        points[i]? = some [(ps.get ⟨i, hi⟩).1, (ps.get ⟨i, hi⟩).2.1, (ps.get ⟨i, hi⟩).2.2]) ∧
      (∀ x y z, (getlines content).getLast? = some "1.0 2.0 3.0" →
        sl.stod "1.0" = .ok x → sl.stod "2.0" = .ok y → sl.stod "3.0" = .ok z →
        points.getLast? = some [x, y, z]) ∧
      (content = "" → points = []) := by
  have hreads : List.Forall₂ (fun line p => ReadsPoint sl (split (c_str line) ' ') p)
      (getlines content) ps := hlines.imp (fun _ _ hw => hw.2)
  refine ⟨ps.map pointRow, ?_, ?_, ?_, ?_, ?_, ?_⟩
  · simp only [loadSurfacePointsFromTxt, hopen]
    rw [loadSurfaceLoop_reads sl filepath _ ps hreads []]
    simp
  · rw [List.length_map, hlines.length_eq]
  · intro row hrow
    obtain ⟨p, _, hp⟩ := List.mem_map.mp hrow
    rw [← hp]
    rfl
  · intro i hi
    rw [List.getElem?_map, List.getElem?_eq_getElem hi]
    rfl
  · intro x y z hlast hx hy hz
    obtain ⟨p, hp, hwf⟩ := forall₂_getLast? hlines hlast
    have htok : split (c_str "1.0 2.0 3.0") ' ' = ["1.0", "2.0", "3.0"] := by decide
    obtain ⟨_, h0, h1, h2⟩ := hwf
    rw [htok] at h0 h1 h2
    simp only [tokenStod, List.getElem?_cons_zero, List.getElem?_cons_succ, hx, hy, hz,
      Option.some.injEq] at h0 h1 h2
    rw [List.getLast?_map, hp]
    simp [pointRow, ← h0, ← h1, ← h2]
  · intro hempty
    subst hempty
    rw [getlines_empty] at hlines
    cases hlines
    rfl

/-- The hypotheses of C4 hold for the file `data/points.txt` of `demoFs`, whose
lines are `4 5 6` and `1.0 2.0 3.0`: the loader returns the two points in file
order, `(1, 2, 3)` being the last row. -/
theorem loadSurfacePointsFromTxt_rows_witness :
    demoFs "data/points.txt" = some "4 5 6\n1.0 2.0 3.0" ∧
    List.Forall₂ (WellFormedPoint intLib) (getlines "4 5 6\n1.0 2.0 3.0")
      [(4, 5, 6), (1, 2, 3)] ∧
    ∃ points, loadSurfacePointsFromTxt intLib demoFs "data/points.txt" = .returned points ∧
      points.length = 2 ∧ points[0]? = some [4, 5, 6] ∧ points[1]? = some [1, 2, 3] ∧
      points.getLast? = some [1, 2, 3] := by
  have hlines : List.Forall₂ (WellFormedPoint intLib) (getlines "4 5 6\n1.0 2.0 3.0")
      [(4, 5, 6), (1, 2, 3)] :=
    List.Forall₂.cons (by decide) (List.Forall₂.cons (by decide) List.Forall₂.nil)
  refine ⟨by decide, hlines, ?_⟩
  obtain ⟨points, hres, hlen, _, hrows, hlast, _⟩ :=
    loadSurfacePointsFromTxt_rows intLib demoFs "data/points.txt" "4 5 6\n1.0 2.0 3.0"
      [(4, 5, 6), (1, 2, 3)] (by decide) hlines
  refine ⟨points, hres, ?_, hrows 0 (by decide), hrows 1 (by decide),
    hlast 1 2 3 (by decide) rfl rfl rfl⟩
  rw [hlen]
  decide

/-! ## The camera loader -/

/-- C5: for a configuration of type `pinhole` in which `fx, fy, cx, cy, width,
height, k1, k2, p1, p2` are all present, `loadCameraFromYaml` returns a model
with the configuration's `fx, fy, cx, cy`, with `width` and `height` equal to the
integer fields modulo 2^32 (so equal to the field when it is not negative), and
with the distortion vector `(k1, k2, p1, p2, 0.0)`, whose fifth component is the
literal `0.0`. -/
theorem loadCameraFromYaml_pinhole {D : Type} (sl : StdLib D)
    (configs : String → Option (CameraSettings D)) (filepath : String)
    (settings : CameraSettings D) (fx fy cx cy k1 k2 p1 p2 : D) (width height : Int)
    (hload : configs filepath = some settings)
    (htype : settings.getString "type" = some "pinhole")
    (hfx : settings.getDouble "fx" = some fx) (hfy : settings.getDouble "fy" = some fy)
    (hcx : settings.getDouble "cx" = some cx) (hcy : settings.getDouble "cy" = some cy)
    (hwidth : settings.getInt "width" = some width)
    (hheight : settings.getInt "height" = some height)
    (hk1 : settings.getDouble "k1" = some k1) (hk2 : settings.getDouble "k2" = some k2)
    (hp1 : settings.getDouble "p1" = some p1) (hp2 : settings.getDouble "p2" = some p2) :
    ∃ cam, loadCameraFromYaml sl configs filepath = .returned cam ∧
      cam.fx = fx ∧ cam.fy = fy ∧ cam.cx = cx ∧ cam.cy = cy ∧
      (cam.width : Int) = width % 2 ^ 32 ∧ (cam.height : Int) = height % 2 ^ 32 ∧
      (0 ≤ width → width < 2 ^ 32 → (cam.width : Int) = width) ∧
      (0 ≤ height → height < 2 ^ 32 → (cam.height : Int) = height) ∧
      cam.distortion = [k1, k2, p1, p2, sl.zero] ∧
      cam.distortion[4]? = some sl.zero := by
  have hw : ((toUint32 width : Nat) : Int) = width % 2 ^ 32 :=
    Int.toNat_of_nonneg (Int.emod_nonneg _ (by norm_num))
  have hh : ((toUint32 height : Nat) : Int) = height % 2 ^ 32 :=
    Int.toNat_of_nonneg (Int.emod_nonneg _ (by norm_num))
  refine ⟨(Pinhole.create sl fx fy cx cy (toUint32 width) (toUint32 height)).setDistortionMap
    k1 k2 p1 p2 sl.zero, ?_, rfl, rfl, rfl, rfl, hw, hh, ?_, ?_, rfl, rfl⟩
  · simp [loadCameraFromYaml, CameraSettingsFactory.load, hload, required_some _ _ _ htype,
      required_some _ _ _ hfx, required_some _ _ _ hfy, required_some _ _ _ hcx,
      required_some _ _ _ hcy, required_some _ _ _ hwidth, required_some _ _ _ hheight,
      required_some _ _ _ hk1, required_some _ _ _ hk2, required_some _ _ _ hp1,
      required_some _ _ _ hp2]
  · intro h0 h1
    exact hw.trans (Int.emod_eq_of_lt h0 h1)
  · intro h0 h1
    exact hh.trans (Int.emod_eq_of_lt h0 h1)

/-- The hypotheses of C5 hold for the configuration `cam/pinhole.yaml` of
`demoConfigs`, and the loader returns the 640x480 model. -/
theorem loadCameraFromYaml_pinhole_witness :
    demoConfigs "cam/pinhole.yaml" = some pinholeSettings ∧
    pinholeSettings.getString "type" = some "pinhole" ∧
    ∃ cam, loadCameraFromYaml intLib demoConfigs "cam/pinhole.yaml" = .returned cam ∧
      cam.fx = 500 ∧ cam.fy = 501 ∧ cam.cx = 320 ∧ cam.cy = 240 ∧
      (cam.width : Int) = 640 ∧ (cam.height : Int) = 480 ∧
      cam.distortion = [1, 2, 3, 4, 0] := by
  refine ⟨rfl, by decide, ?_⟩
  obtain ⟨cam, hres, hfx, hfy, hcx, hcy, _, _, hw, hh, hd, _⟩ :=
    loadCameraFromYaml_pinhole intLib demoConfigs "cam/pinhole.yaml" pinholeSettings
      500 501 320 240 1 2 3 4 640 480 rfl (by decide) (by decide) (by decide)
      (by decide) (by decide) (by decide) (by decide) (by decide) (by decide) (by decide)
      (by decide)
  exact ⟨cam, hres, hfx, hfy, hcx, hcy, hw (by decide) (by decide), hh (by decide) (by decide),
    hd⟩

/-- C6, evaluated on the code: for the configuration `cam/spherical.yaml`, whose
type is `spherical`, `loadCameraFromYaml` raises nothing, and in particular no
`UnsupportedCameraType("spherical")`: control flows off the end of the function,
which is undefined behaviour. -/
theorem loadCameraFromYaml_spherical_undefined :
    demoConfigs "cam/spherical.yaml" = some sphericalSettings ∧
    sphericalSettings.getString "type" = some "spherical" ∧
    loadCameraFromYaml intLib demoConfigs "cam/spherical.yaml" = Outcome.undefined ∧
    loadCameraFromYaml intLib demoConfigs "cam/spherical.yaml" ≠
      Outcome.thrown (Failure.UnsupportedCameraType "spherical") := by
  have h : loadCameraFromYaml intLib demoConfigs "cam/spherical.yaml" = Outcome.undefined :=
    loadCameraFromYaml_other_type intLib demoConfigs "cam/spherical.yaml" "spherical"
      sphericalSettings rfl (by decide) (by decide)
  refine ⟨rfl, by decide, h, ?_⟩
  rw [h]
  exact fun hc => Outcome.noConfusion hc

/-! ## Failures of the line-oriented loaders -/

/-- C7, evaluated on the code: the file `data/seven.txt` holds the single line
`1 0 0 0 0 0 0` of exactly 7 numeric tokens. The line passes the length check
(`7 < 7` is false) and the loader then reads `tokens[7]` of a vector of 7
elements: the call has undefined behaviour, it raises no failure. -/
theorem loadTrajectoryFromTxtTUM_seven_tokens_undefined :
    demoFs "data/seven.txt" = some "1 0 0 0 0 0 0\n" ∧
    getlines "1 0 0 0 0 0 0\n" = ["1 0 0 0 0 0 0"] ∧
    split (c_str "1 0 0 0 0 0 0") ' ' = ["1", "0", "0", "0", "0", "0", "0"] ∧
    ¬ (split (c_str "1 0 0 0 0 0 0") ' ').length < 7 ∧
    vecAt (split (c_str "1 0 0 0 0 0 0") ' ') 7 = Outcome.undefined ∧
    loadTrajectoryFromTxtTUM intLib demoFs "data/seven.txt" = Outcome.undefined ∧
    (∀ e, loadTrajectoryFromTxtTUM intLib demoFs "data/seven.txt" ≠ Outcome.thrown e) := by
  have hline : loadTrajectoryLine intLib [] "1 0 0 0 0 0 0" = Outcome.undefined :=
    loadTrajectoryLine_seven_tokens intLib [] "1 0 0 0 0 0 0" "1" "0" "0" "0" "0" "0" "0"
      1 0 0 0 0 0 0 (by decide) rfl rfl rfl rfl rfl rfl rfl
  have h : loadTrajectoryFromTxtTUM intLib demoFs "data/seven.txt" = Outcome.undefined := by
    rw [loadTrajectoryFromTxtTUM_of_lines intLib demoFs "data/seven.txt" "1 0 0 0 0 0 0\n"
      ["1 0 0 0 0 0 0"] (by decide) (by decide), loadTrajectoryLoop_cons, hline]
    rfl
  refine ⟨by decide, by decide, by decide, by decide, by decide, h, ?_⟩
  intro e
  rw [h]
  exact fun hc => Outcome.noConfusion hc

/-- C8: when the file at `filepath` cannot be opened, `loadTrajectoryFromTxtTUM`
and `loadSurfacePointsFromTxt` raise a `std::runtime_error` whose message is the
fixed text around the path passed in, so it contains that path; the outcome does
not depend on the conversions, no line being read. -/
theorem load_missing_file {D : Type} (sl : StdLib D) (fs : FileSystem) (filepath : String)
    (hclosed : fs filepath = none) :
    loadTrajectoryFromTxtTUM sl fs filepath = .thrown (.runtime_error
      ("Error loading trajectory file from '" ++ filepath ++ "': Could not open file!")) ∧
    Contains ("Error loading trajectory file from '" ++ filepath ++ "': Could not open file!")
      filepath ∧
    loadSurfacePointsFromTxt sl fs filepath = .thrown (.runtime_error
      ("Error loading surface point file from '" ++ filepath ++ "': Could not open file!")) ∧
    Contains ("Error loading surface point file from '" ++ filepath ++ "': Could not open file!")
      filepath := by
  refine ⟨?_, contains_middle _ _ _, ?_, contains_middle _ _ _⟩
  · simp only [loadTrajectoryFromTxtTUM, hclosed, trajectoryOpenMessage]
  · simp only [loadSurfacePointsFromTxt, hclosed, surfaceOpenMessage]

/-- The hypothesis of C8 holds for the path `data/missing.txt`, which `demoFs`
does not have, and both loaders raise the file-open failure naming it. -/
theorem load_missing_file_witness :
    demoFs "data/missing.txt" = none ∧
    loadTrajectoryFromTxtTUM intLib demoFs "data/missing.txt" = .thrown (.runtime_error
      "Error loading trajectory file from 'data/missing.txt': Could not open file!") ∧
    loadSurfacePointsFromTxt intLib demoFs "data/missing.txt" = .thrown (.runtime_error
      "Error loading surface point file from 'data/missing.txt': Could not open file!") := by
  have h := load_missing_file intLib demoFs "data/missing.txt" (by decide)
  exact ⟨by decide, h.1, h.2.2.1⟩

/-- C9, evaluated on the code: the file `data/short.txt` holds the line `1 2 3`,
which has too few tokens for a trajectory. Whatever the conversions are,
`loadTrajectoryFromTxtTUM` raises the `std::runtime_error` of line 71, whose
message is one fixed string literal that does not contain the path
`data/short.txt`. The sibling `loadSurfacePointsFromTxt`, on the one-token file
`data/one.txt`, raises a message that does contain the path. -/
theorem loadTrajectoryFromTxtTUM_line_failure_without_path {D : Type} (sl : StdLib D) :
    demoFs "data/short.txt" = some "1 2 3\n" ∧
    (split (c_str "1 2 3") ' ').length < 7 ∧
    loadTrajectoryFromTxtTUM sl demoFs "data/short.txt" = .thrown (.runtime_error
      "Error loading trajectory file from '\" + (directory+filename) + \"': Not enough arguments in line!") ∧
    ¬ Contains
      "Error loading trajectory file from '\" + (directory+filename) + \"': Not enough arguments in line!"
      "data/short.txt" ∧
    loadSurfacePointsFromTxt sl demoFs "data/one.txt" = .thrown (.runtime_error
      "Error loading surface point file from 'data/one.txt': Not enough arguments in line!") ∧
    Contains "Error loading surface point file from 'data/one.txt': Not enough arguments in line!"
      "data/one.txt" := by
  refine ⟨by decide, by decide, ?_, by decide, ?_, by decide⟩
  · rw [loadTrajectoryFromTxtTUM_of_lines sl demoFs "data/short.txt" "1 2 3\n" ["1 2 3"]
      (by decide) (by decide), loadTrajectoryLoop_cons,
      loadTrajectoryLine_short sl [] "1 2 3" (by decide)]
    rfl
  · rw [loadSurfacePointsFromTxt_of_lines sl demoFs "data/one.txt" "1\n" ["1"]
      (by decide) (by decide), loadSurfaceLoop_cons,
      loadSurfaceLine_short sl "data/one.txt" [] "1" (by decide)]
    rfl

/-! ## The (directory, filename) overloads -/

/-- C10: the (directory, filename) overloads of `loadCameraFromYaml` and
`loadTrajectoryFromTxtTUM` have exactly the outcome of the one-path functions on
the joined path; the joined path `directory + "/" + filename` is the plain
concatenation with one `/` inserted, and nothing is normalised: a directory that
ends in `/` gives a doubled separator. -/
theorem overloads_join_and_delegate {D : Type} (sl : StdLib D)
    (configs : String → Option (CameraSettings D)) (fs : FileSystem)
    (directory filename : String) :
    loadCameraFromYamlIn sl configs directory filename =
      loadCameraFromYaml sl configs (joinPath directory filename) ∧
    loadTrajectoryFromTxtTUMIn sl fs directory filename =
      loadTrajectoryFromTxtTUM sl fs (joinPath directory filename) ∧
    joinPath directory filename = directory ++ "/" ++ filename ∧
    joinPath (directory ++ "/") filename = directory ++ "//" ++ filename ∧
    joinPath "a/" "b" = "a//b" := by
  have hjoin : ∀ d f : String, joinPath d f = d ++ "/" ++ f := by
    intro d f
    apply String.ext
    simp [joinPath]
  refine ⟨?_, ?_, hjoin _ _, ?_, by decide⟩
  · rw [hjoin]; rfl
  · rw [hjoin]; rfl
  · rw [hjoin]
    apply String.ext
    simp

/-! ## Numerical properties of the rotation block -/

/-- C11: in a file of well-formed lines, take a line with the identity
quaternion (`qw = 1`, `qx = qy = qz = 0`) that no later line of the same
timestamp overwrites, whatever its timestamp and translation. Columns 0-2 of the
pose stored under its timestamp are the 3x3 identity matrix. The arithmetic
facts used (`2 * 0 = 0`, `0 * 1 = 0`, `0 * 0 = 0`, `0 + 0 = 0`, `1 - 0 = 1`,
`0 - 0 = 0`) are those of `StdLib.ZeroOne`. -/
theorem loadTrajectoryFromTxtTUM_identity_quaternion {D : Type} (sl : StdLib D)
    (fs : FileSystem) (filepath content : String) (rs : List (TumRecord D))
    (hopen : fs filepath = some content)
    (hlines : List.Forall₂ (WellFormedTum sl) (getlines content) rs)
    (harith : sl.ZeroOne) :
    ∃ result, loadTrajectoryFromTxtTUM sl fs filepath = .returned result ∧
      ∀ pre r post, rs = pre ++ r :: post → (∀ r' ∈ post, r'.timestamp ≠ r.timestamp) →
        r.qw = sl.one → r.qx = sl.zero → r.qy = sl.zero → r.qz = sl.zero →
        ∃ pose, result.find r.timestamp = some pose ∧
          ∀ i j : Fin 3, pose.entry i j = some (if i = j then sl.one else sl.zero) := by
  refine ⟨storeAll sl rs [], ?_, ?_⟩
  · simp only [loadTrajectoryFromTxtTUM, hopen]
    exact loadTrajectoryLoop_reads sl _ rs (forall₂_reads_of_wellFormed sl hlines) []
  · intro pre r post hsplit hpost hw hx hy hz
    refine ⟨r.pose sl, ?_, ?_⟩
    · rw [hsplit]
      exact find_storeAll_last sl pre post r [] hpost
    · obtain ⟨h20, h01, h00, hadd, hsub1, hsub0⟩ := harith
      intro i j
      rw [entry_pose_rotation, hw, hx, hy, hz]
      simp only [Quaternion.toRotationMatrix, h20, h01, h00, hadd, hsub1, hsub0]
      fin_cases i <;> fin_cases j <;> rfl

/-- The hypotheses of C11 hold for the file `data/traj.txt` of `demoFs`, whose
first line `10 1 2 3 0 0 0 1` has the identity quaternion: the rotation block
stored under 10 is the identity matrix. -/
theorem loadTrajectoryFromTxtTUM_identity_quaternion_witness :
    demoFs "data/traj.txt" = some "10 1 2 3 0 0 0 1\n20 4 5 6 1 0 0 0\n" ∧
    List.Forall₂ (WellFormedTum intLib) (getlines "10 1 2 3 0 0 0 1\n20 4 5 6 1 0 0 0\n")
      [⟨10, 1, 2, 3, 0, 0, 0, 1⟩, ⟨20, 4, 5, 6, 1, 0, 0, 0⟩] ∧
    intLib.ZeroOne ∧
    ∃ result pose, loadTrajectoryFromTxtTUM intLib demoFs "data/traj.txt" = .returned result ∧
      result.find 10 = some pose ∧
      ∀ i j : Fin 3, pose.entry i j = some (if i = j then 1 else 0) := by
  have hlines : List.Forall₂ (WellFormedTum intLib)
      (getlines "10 1 2 3 0 0 0 1\n20 4 5 6 1 0 0 0\n")
      [⟨10, 1, 2, 3, 0, 0, 0, 1⟩, ⟨20, 4, 5, 6, 1, 0, 0, 0⟩] :=
    List.Forall₂.cons (by decide) (List.Forall₂.cons (by decide) List.Forall₂.nil)
  have harith : intLib.ZeroOne := ⟨rfl, rfl, rfl, rfl, rfl, rfl⟩
  refine ⟨by decide, hlines, harith, ?_⟩
  obtain ⟨result, hres, hall⟩ :=
    loadTrajectoryFromTxtTUM_identity_quaternion intLib demoFs "data/traj.txt" _
      [⟨10, 1, 2, 3, 0, 0, 0, 1⟩, ⟨20, 4, 5, 6, 1, 0, 0, 0⟩] (by decide) hlines harith
  obtain ⟨pose, hfind, hid⟩ :=
    hall [] ⟨10, 1, 2, 3, 0, 0, 0, 1⟩ [⟨20, 4, 5, 6, 1, 0, 0, 0⟩] rfl (by simp) rfl rfl rfl rfl
  exact ⟨result, pose, hres, hfind, hid⟩

/-! ## Empty lines, short lines, trailing tokens -/

/-- After lines whose first 8 tokens convert, the trajectory loop goes on with
the map that holds their records. -/
theorem loadTrajectoryLoop_append_reads {D : Type} (sl : StdLib D) (before rest : List String)
    (rs : List (TumRecord D))
    (h : List.Forall₂ (fun line r => ReadsTum sl (split (c_str line) ' ') r) before rs)
    (m : UMap (Mat D)) :
    loadTrajectoryLoop sl (before ++ rest) m = loadTrajectoryLoop sl rest (storeAll sl rs m) := by
  induction h generalizing m with
  | nil => rfl
  | cons hd _ ih =>
    rw [List.cons_append, loadTrajectoryLoop_cons, loadTrajectoryLine_reads sl m _ _ hd,
      Outcome.returned_bind, ih]
    rfl

/-- After lines whose first 3 tokens convert, the point loop goes on with the
matrix that holds their points. -/
theorem loadSurfaceLoop_append_reads {D : Type} (sl : StdLib D) (filepath : String)
    (before rest : List String) (ps : List (D × D × D))
    (h : List.Forall₂ (fun line p => ReadsPoint sl (split (c_str line) ' ') p) before ps)
    (points : Mat D) :
    loadSurfaceLoop sl filepath (before ++ rest) points =
      loadSurfaceLoop sl filepath rest (points ++ ps.map pointRow) := by
  induction h generalizing points with
  | nil => simp
  | cons hd _ ih =>
    rw [List.cons_append, loadSurfaceLoop_cons, loadSurfaceLine_reads sl filepath points _ _ hd,
      Outcome.returned_bind, ih]
    simp

/-- A trajectory file in which a line of fewer than 7 tokens follows lines whose
first 8 tokens convert. -/
theorem loadTrajectoryFromTxtTUM_short_line {D : Type} (sl : StdLib D) (fs : FileSystem)
    (filepath content : String) (before after : List String) (line : String)
    (rs : List (TumRecord D)) (hopen : fs filepath = some content)
    (hfile : getlines content = before ++ line :: after)
    (hbefore : List.Forall₂ (fun l r => ReadsTum sl (split (c_str l) ' ') r) before rs)
    (hshort : (split (c_str line) ' ').length < 7) :
    loadTrajectoryFromTxtTUM sl fs filepath = .thrown (.runtime_error trajectoryLineMessage) := by
  rw [loadTrajectoryFromTxtTUM_of_lines sl fs filepath content _ hopen hfile,
    loadTrajectoryLoop_append_reads sl before _ rs hbefore, loadTrajectoryLoop_cons,
    loadTrajectoryLine_short sl _ line hshort]
  rfl

/-- A point file in which a line of fewer than 2 tokens follows lines whose
first 3 tokens convert. -/
theorem loadSurfacePointsFromTxt_short_line {D : Type} (sl : StdLib D) (fs : FileSystem)
    (filepath content : String) (before after : List String) (line : String)
    (ps : List (D × D × D)) (hopen : fs filepath = some content)
    (hfile : getlines content = before ++ line :: after)
    (hbefore : List.Forall₂ (fun l p => ReadsPoint sl (split (c_str l) ' ') p) before ps)
    (hshort : (split (c_str line) ' ').length < 2) :
    loadSurfacePointsFromTxt sl fs filepath =
      .thrown (.runtime_error (surfaceLineMessage filepath)) := by
  rw [loadSurfacePointsFromTxt_of_lines sl fs filepath content _ hopen hfile,
    loadSurfaceLoop_append_reads sl filepath before _ ps hbefore, loadSurfaceLoop_cons,
    loadSurfaceLine_short sl filepath _ line hshort]
  rfl

/-- C12 fails on the code: the non-empty lines `4 5 6` and `1.0 2.0 3.0` of
`data/blank.txt` are well-formed and an empty line stands between them.
`loadSurfacePointsFromTxt` does not return what it returns for `data/points.txt`,
the same file without the empty line: it raises the failure of the length check.
Likewise `loadTrajectoryFromTxtTUM` raises on `data/trailing.txt`, a well-formed
line followed by an empty line. -/
theorem empty_line_is_not_skipped :
    getlines "4 5 6\n\n1.0 2.0 3.0" = ["4 5 6", "", "1.0 2.0 3.0"] ∧
    WellFormedPoint intLib "4 5 6" (4, 5, 6) ∧
    WellFormedPoint intLib "1.0 2.0 3.0" (1, 2, 3) ∧
    getlines "4 5 6\n1.0 2.0 3.0" = ["4 5 6", "1.0 2.0 3.0"] ∧
    loadSurfacePointsFromTxt intLib demoFs "data/points.txt" =
      .returned [[4, 5, 6], [1, 2, 3]] ∧
    loadSurfacePointsFromTxt intLib demoFs "data/blank.txt" = .thrown (.runtime_error
      "Error loading surface point file from 'data/blank.txt': Not enough arguments in line!") ∧
    loadSurfacePointsFromTxt intLib demoFs "data/blank.txt" ≠
      loadSurfacePointsFromTxt intLib demoFs "data/points.txt" ∧
    getlines "10 1 2 3 0 0 0 1\n\n" = ["10 1 2 3 0 0 0 1", ""] ∧
    WellFormedTum intLib "10 1 2 3 0 0 0 1" ⟨10, 1, 2, 3, 0, 0, 0, 1⟩ ∧
    loadTrajectoryFromTxtTUM intLib demoFs "data/trailing.txt" =
      .thrown (.runtime_error trajectoryLineMessage) := by
  refine ⟨by decide, by decide, by decide, by decide, by decide, by decide, by decide,
    by decide, by decide, by decide⟩

/-- C12 as amended: the loaders process every line, empty ones included. A file
whose lines are all well-formed (so none is empty) is loaded with success; an
empty line that follows well-formed lines is not skipped, it is a line with too
few fields and the call raises the `Not enough arguments in line` failure. -/
theorem loaders_process_every_line {D : Type} (sl : StdLib D) (fs : FileSystem)
    (trajectoryPath trajectoryContent pointPath pointContent : String)
    (hopenT : fs trajectoryPath = some trajectoryContent)
    (hopenP : fs pointPath = some pointContent) :
    (∀ rs, List.Forall₂ (WellFormedTum sl) (getlines trajectoryContent) rs →
      ∃ result, loadTrajectoryFromTxtTUM sl fs trajectoryPath = .returned result) ∧
    (∀ ps, List.Forall₂ (WellFormedPoint sl) (getlines pointContent) ps →
      ∃ points, loadSurfacePointsFromTxt sl fs pointPath = .returned points) ∧
    (∀ before after rs, getlines trajectoryContent = before ++ "" :: after →
      List.Forall₂ (WellFormedTum sl) before rs →
      loadTrajectoryFromTxtTUM sl fs trajectoryPath = .thrown (.runtime_error
        "Error loading trajectory file from '\" + (directory+filename) + \"': Not enough arguments in line!")) ∧
    (∀ before after ps, getlines pointContent = before ++ "" :: after →
      List.Forall₂ (WellFormedPoint sl) before ps →
      loadSurfacePointsFromTxt sl fs pointPath = .thrown (.runtime_error
        ("Error loading surface point file from '" ++ pointPath ++
          "': Not enough arguments in line!"))) := by
  refine ⟨?_, ?_, ?_, ?_⟩
  · intro rs hrs
    refine ⟨storeAll sl rs [], ?_⟩
    simp only [loadTrajectoryFromTxtTUM, hopenT]
    exact loadTrajectoryLoop_reads sl _ rs (forall₂_reads_of_wellFormed sl hrs) []
  · intro ps hps
    refine ⟨[] ++ ps.map pointRow, ?_⟩
    simp only [loadSurfacePointsFromTxt, hopenP]
    exact loadSurfaceLoop_reads sl pointPath _ ps (hps.imp (fun _ _ hw => hw.2)) []
  · intro before after rs hfile hbefore
    exact loadTrajectoryFromTxtTUM_short_line sl fs trajectoryPath trajectoryContent before
      after "" rs hopenT hfile (forall₂_reads_of_wellFormed sl hbefore) (by decide)
  · intro before after ps hfile hbefore
    exact loadSurfacePointsFromTxt_short_line sl fs pointPath pointContent before after ""
      ps hopenP hfile (hbefore.imp (fun _ _ hw => hw.2)) (by decide)

/-- The hypotheses of the amended C12 hold for the files `data/trailing.txt`
and `data/blank.txt` of `demoFs`, in each of which an empty line follows a
well-formed line: both loaders raise the failure of the length check. -/
theorem loaders_process_every_line_witness :
    demoFs "data/trailing.txt" = some "10 1 2 3 0 0 0 1\n\n" ∧
    demoFs "data/blank.txt" = some "4 5 6\n\n1.0 2.0 3.0" ∧
    loadTrajectoryFromTxtTUM intLib demoFs "data/trailing.txt" = .thrown (.runtime_error
      "Error loading trajectory file from '\" + (directory+filename) + \"': Not enough arguments in line!") ∧
    loadSurfacePointsFromTxt intLib demoFs "data/blank.txt" = .thrown (.runtime_error
      "Error loading surface point file from 'data/blank.txt': Not enough arguments in line!") := by
  have h := loaders_process_every_line intLib demoFs "data/trailing.txt"
    "10 1 2 3 0 0 0 1\n\n" "data/blank.txt" "4 5 6\n\n1.0 2.0 3.0" (by decide) (by decide)
  refine ⟨by decide, by decide, ?_, ?_⟩
  · exact h.2.2.1 ["10 1 2 3 0 0 0 1"] [] [⟨10, 1, 2, 3, 0, 0, 0, 1⟩] (by decide)
      (List.Forall₂.cons (by decide) List.Forall₂.nil)
  · exact h.2.2.2 ["4 5 6"] ["1.0 2.0 3.0"] [(4, 5, 6)] (by decide)
      (List.Forall₂.cons (by decide) List.Forall₂.nil)

/-- A point line of exactly 2 tokens that both convert passes the length check
and then reads `tokens[2]`. -/
theorem loadSurfaceLine_two_tokens {D : Type} (sl : StdLib D) (filepath : String)
    (points : Mat D) (line : String) (t0 t1 : String) (x y : D)
    (htok : split (c_str line) ' ' = [t0, t1])
    (h0 : sl.stod t0 = .ok x) (h1 : sl.stod t1 = .ok y) :
    loadSurfaceLine sl filepath points line = Outcome.undefined := by
  simp [loadSurfaceLine, htok, vecAt, conv, h0, h1]

/-- C13, evaluated on the code: the file `data/two.txt` holds the single line
`1 2` of exactly 2 numeric tokens. The line passes the length check (`2 < 2` is
false) and the loader then reads `tokens[2]` of a vector of 2 elements: the call
has undefined behaviour, no failure is raised. A line of one token, as in
`data/one.txt`, does raise the failure of the length check. -/
theorem loadSurfacePointsFromTxt_two_tokens_undefined :
    demoFs "data/two.txt" = some "1 2\n" ∧
    getlines "1 2\n" = ["1 2"] ∧
    split (c_str "1 2") ' ' = ["1", "2"] ∧
    ¬ (split (c_str "1 2") ' ').length < 2 ∧
    vecAt (split (c_str "1 2") ' ') 2 = Outcome.undefined ∧
    loadSurfacePointsFromTxt intLib demoFs "data/two.txt" = Outcome.undefined ∧
    (∀ e, loadSurfacePointsFromTxt intLib demoFs "data/two.txt" ≠ Outcome.thrown e) ∧
    loadSurfacePointsFromTxt intLib demoFs "data/one.txt" = .thrown (.runtime_error
      "Error loading surface point file from 'data/one.txt': Not enough arguments in line!") := by
  have hline : loadSurfaceLine intLib "data/two.txt" [] "1 2" = Outcome.undefined :=
    loadSurfaceLine_two_tokens intLib "data/two.txt" [] "1 2" "1" "2" 1 2 (by decide) rfl rfl
  have h : loadSurfacePointsFromTxt intLib demoFs "data/two.txt" = Outcome.undefined := by
    rw [loadSurfacePointsFromTxt_of_lines intLib demoFs "data/two.txt" "1 2\n" ["1 2"]
      (by decide) (by decide), loadSurfaceLoop_cons, hline]
    rfl
  refine ⟨by decide, by decide, by decide, by decide, by decide, h, ?_, by decide⟩
  intro e
  rw [h]
  exact fun hc => Outcome.noConfusion hc

/-- C14: when a line of fewer than 7 tokens follows well-formed lines, however
many, `loadTrajectoryFromTxtTUM` raises the `std::runtime_error` whose message
ends in `Not enough arguments in line!` and returns no map, whatever the lines
after it are. -/
theorem loadTrajectoryFromTxtTUM_fails_fast {D : Type} (sl : StdLib D) (fs : FileSystem)
    (filepath content : String) (before after : List String) (line : String)
    (rs : List (TumRecord D))
    (hopen : fs filepath = some content)
    (hfile : getlines content = before ++ line :: after)
    (hbefore : List.Forall₂ (WellFormedTum sl) before rs)
    (hshort : (split (c_str line) ' ').length < 7) :
    loadTrajectoryFromTxtTUM sl fs filepath = .thrown (.runtime_error
      "Error loading trajectory file from '\" + (directory+filename) + \"': Not enough arguments in line!") ∧
    Contains
      "Error loading trajectory file from '\" + (directory+filename) + \"': Not enough arguments in line!"
      "Not enough arguments in line" ∧
    ∀ result, loadTrajectoryFromTxtTUM sl fs filepath ≠ .returned result := by
  have h := loadTrajectoryFromTxtTUM_short_line sl fs filepath content before after line rs
    hopen hfile (forall₂_reads_of_wellFormed sl hbefore) hshort
  refine ⟨h, by decide, ?_⟩
  intro result
  rw [h]
  exact fun hc => Outcome.noConfusion hc

/-- The hypotheses of C14 hold for the file `data/broken.txt` of `demoFs`, whose
second line `20 4 5` is too short, between two well-formed lines: the loader
raises the failure and returns nothing. -/
theorem loadTrajectoryFromTxtTUM_fails_fast_witness :
    demoFs "data/broken.txt" = some "10 1 2 3 0 0 0 1\n20 4 5\n30 7 8 9 0 0 0 1\n" ∧
    getlines "10 1 2 3 0 0 0 1\n20 4 5\n30 7 8 9 0 0 0 1\n" =
      ["10 1 2 3 0 0 0 1"] ++ "20 4 5" :: ["30 7 8 9 0 0 0 1"] ∧
    WellFormedTum intLib "10 1 2 3 0 0 0 1" ⟨10, 1, 2, 3, 0, 0, 0, 1⟩ ∧
    (split (c_str "20 4 5") ' ').length < 7 ∧
    loadTrajectoryFromTxtTUM intLib demoFs "data/broken.txt" = .thrown (.runtime_error
      "Error loading trajectory file from '\" + (directory+filename) + \"': Not enough arguments in line!") ∧
    ∀ result, loadTrajectoryFromTxtTUM intLib demoFs "data/broken.txt" ≠ .returned result := by
  have hwf : WellFormedTum intLib "10 1 2 3 0 0 0 1" ⟨10, 1, 2, 3, 0, 0, 0, 1⟩ := by decide
  have h := loadTrajectoryFromTxtTUM_fails_fast intLib demoFs "data/broken.txt"
    "10 1 2 3 0 0 0 1\n20 4 5\n30 7 8 9 0 0 0 1\n" ["10 1 2 3 0 0 0 1"]
    ["30 7 8 9 0 0 0 1"] "20 4 5" [⟨10, 1, 2, 3, 0, 0, 0, 1⟩] (by decide) (by decide)
    (List.Forall₂.cons hwf List.Forall₂.nil) (by decide)
  exact ⟨by decide, by decide, hwf, by decide, h.1, h.2.2⟩

/-! ## Quaternions that are not unit quaternions -/

theorem vecAt_take {tokens : List String} {n i : Nat} (h : i < n) :
    vecAt (tokens.take n) i = vecAt tokens i := by
  simp only [vecAt, List.getElem?_take_of_lt h]

theorem vecAt_eq_of_take_eq {tokens tokens' : List String} {n : Nat}
    (h : tokens'.take n = tokens.take n) {i : Nat} (hi : i < n) :
    vecAt tokens' i = vecAt tokens i := by
  rw [← vecAt_take hi, h, vecAt_take hi]

theorem length_lt_of_take_eq {tokens tokens' : List String} {n k : Nat}
    (h : tokens'.take n = tokens.take n) (hk : k ≤ n) :
    tokens'.length < k ↔ tokens.length < k := by
  have hlen := congrArg List.length h
  simp only [List.length_take] at hlen
  omega

/-- One iteration of the trajectory loop reads the first 8 tokens only. -/
theorem loadTrajectoryLine_first_tokens {D : Type} (sl : StdLib D) (m : UMap (Mat D))
    (line line' : String)
    (h : (split (c_str line') ' ').take 8 = (split (c_str line) ' ').take 8) :
    loadTrajectoryLine sl m line' = loadTrajectoryLine sl m line := by
  simp only [loadTrajectoryLine, length_lt_of_take_eq h (by decide : 7 ≤ 8),
    vecAt_eq_of_take_eq h (by decide : 0 < 8), vecAt_eq_of_take_eq h (by decide : 1 < 8),
    vecAt_eq_of_take_eq h (by decide : 2 < 8), vecAt_eq_of_take_eq h (by decide : 3 < 8),
    vecAt_eq_of_take_eq h (by decide : 4 < 8), vecAt_eq_of_take_eq h (by decide : 5 < 8),
    vecAt_eq_of_take_eq h (by decide : 6 < 8), vecAt_eq_of_take_eq h (by decide : 7 < 8)]

/-- One iteration of the point loop reads the first 3 tokens only. -/
theorem loadSurfaceLine_first_tokens {D : Type} (sl : StdLib D) (filepath : String)
    (points : Mat D) (line line' : String)
    (h : (split (c_str line') ' ').take 3 = (split (c_str line) ' ').take 3) :
    loadSurfaceLine sl filepath points line' = loadSurfaceLine sl filepath points line := by
  simp only [loadSurfaceLine, length_lt_of_take_eq h (by decide : 2 ≤ 3),
    vecAt_eq_of_take_eq h (by decide : 0 < 3), vecAt_eq_of_take_eq h (by decide : 1 < 3),
    vecAt_eq_of_take_eq h (by decide : 2 < 3)]

theorem loadTrajectoryLoop_first_tokens {D : Type} (sl : StdLib D) (lines lines' : List String)
    (h : List.Forall₂
      (fun l l' => (split (c_str l') ' ').take 8 = (split (c_str l) ' ').take 8) lines lines')
    (m : UMap (Mat D)) :
    loadTrajectoryLoop sl lines' m = loadTrajectoryLoop sl lines m := by
  induction h generalizing m with
  | nil => rfl
  | cons hd _ ih =>
    rw [loadTrajectoryLoop_cons, loadTrajectoryLoop_cons,
      loadTrajectoryLine_first_tokens sl m _ _ hd]
    congr 1
    funext m'
    exact ih m'

theorem loadSurfaceLoop_first_tokens {D : Type} (sl : StdLib D) (filepath : String)
    (lines lines' : List String)
    (h : List.Forall₂
      (fun l l' => (split (c_str l') ' ').take 3 = (split (c_str l) ' ').take 3) lines lines')
    (points : Mat D) :
    loadSurfaceLoop sl filepath lines' points = loadSurfaceLoop sl filepath lines points := by
  induction h generalizing points with
  | nil => rfl
  | cons hd _ ih =>
    rw [loadSurfaceLoop_cons, loadSurfaceLoop_cons,
      loadSurfaceLine_first_tokens sl filepath points _ _ hd]
    congr 1
    funext points'
    exact ih points'

/-- Splitting a text that has the delimiter in the middle: the tokens of the
part before it, then the tokens of the part after it. -/
theorem splitAux_append_delimiter (c : Char) (a b cur : List Char) :
    splitAux c (a ++ c :: b) cur = splitAux c a cur ++ splitAux c b [] := by
  induction a generalizing cur with
  | nil =>
    by_cases hcur : cur.isEmpty <;> simp [splitAux, hcur]
  | cons ch rest ih =>
    by_cases hch : ch = c
    · by_cases hcur : cur.isEmpty <;> simp [splitAux, hch, hcur, ih]
    · simp [splitAux, hch, ih]

/-- The tokens of a line to which a space and further text are appended start
with the tokens of the line. -/
theorem split_append_extra (line extra : String) :
    ∃ more, split (c_str (line ++ " " ++ extra)) ' ' = split (c_str line) ' ' ++ more := by
  by_cases hnul : ∀ ch ∈ line.data, ch ≠ Char.ofNat 0
  · have h1 : line.data.takeWhile (fun ch => decide (ch ≠ Char.ofNat 0)) = line.data := by
      rw [List.takeWhile_eq_self_iff]
      intro ch hch
      simpa using hnul ch hch
    have h2 : (line.data ++ ' ' :: extra.data).takeWhile (fun ch => decide (ch ≠ Char.ofNat 0)) =
        line.data ++ ' ' :: extra.data.takeWhile (fun ch => decide (ch ≠ Char.ofNat 0)) := by
      rw [List.takeWhile_append_of_pos (fun ch hch => by simpa using hnul ch hch)]
      rw [List.takeWhile_cons_of_pos (by decide)]
    refine ⟨splitAux ' ' (extra.data.takeWhile (fun ch => decide (ch ≠ Char.ofNat 0))) [], ?_⟩
    simp only [split, c_str, String.data_append, List.append_assoc]
    show splitAux ' ' ((line.data ++ ' ' :: extra.data).takeWhile _) [] = _
    rw [h2, h1, splitAux_append_delimiter]
  · refine ⟨[], ?_⟩
    push_neg at hnul
    obtain ⟨ch, hch, hzero⟩ := hnul
    have h : (line.data ++ ' ' :: extra.data).takeWhile (fun ch => decide (ch ≠ Char.ofNat 0)) =
        line.data.takeWhile (fun ch => decide (ch ≠ Char.ofNat 0)) := by
      rw [List.takeWhile_append]
      have hlt : ¬ (line.data.takeWhile (fun ch => decide (ch ≠ Char.ofNat 0))).length =
          line.data.length := by
        intro hlen
        have hself : line.data.takeWhile (fun ch => decide (ch ≠ Char.ofNat 0)) = line.data :=
          (List.takeWhile_sublist _).eq_of_length hlen
        rw [List.takeWhile_eq_self_iff] at hself
        have := hself ch hch
        simp [hzero] at this
      rw [if_neg hlt]
    simp only [split, c_str, String.data_append, List.append_assoc, List.append_nil]
    show splitAux ' ' ((line.data ++ ' ' :: extra.data).takeWhile _) [] = _
    rw [h]

theorem take_split_append_extra (line extra : String) (n : Nat)
    (hlen : n ≤ (split (c_str line) ' ').length) :
    (split (c_str (line ++ " " ++ extra)) ' ').take n = (split (c_str line) ' ').take n := by
  obtain ⟨more, hmore⟩ := split_append_extra line extra
  rw [hmore, List.take_append_of_le_length hlen]

/-- C16: the result of `loadTrajectoryFromTxtTUM` depends only on the first 8
tokens of each line and the result of `loadSurfacePointsFromTxt` only on the
first 3 tokens of each line: two files at the same path whose lines have, one by
one, the same first 8 (respectively 3) tokens give the same outcome, success or
not. Appending a space and any further text to a line that has at least 8
(respectively 3) tokens, as a well-formed line has, leaves its first 8
(respectively 3) tokens as they are. -/
theorem trailing_tokens_are_ignored {D : Type} (sl : StdLib D) (fs fs' : FileSystem)
    (filepath content content' : String)
    (hopen : fs filepath = some content) (hopen' : fs' filepath = some content') :
    (List.Forall₂
        (fun l l' => (split (c_str l') ' ').take 8 = (split (c_str l) ' ').take 8)
        (getlines content) (getlines content') →
      loadTrajectoryFromTxtTUM sl fs' filepath = loadTrajectoryFromTxtTUM sl fs filepath) ∧
    (List.Forall₂
        (fun l l' => (split (c_str l') ' ').take 3 = (split (c_str l) ' ').take 3)
        (getlines content) (getlines content') →
      loadSurfacePointsFromTxt sl fs' filepath = loadSurfacePointsFromTxt sl fs filepath) ∧
    (∀ line extra : String, 8 ≤ (split (c_str line) ' ').length →
      (split (c_str (line ++ " " ++ extra)) ' ').take 8 = (split (c_str line) ' ').take 8) ∧
    (∀ line extra : String, 3 ≤ (split (c_str line) ' ').length →
      (split (c_str (line ++ " " ++ extra)) ' ').take 3 = (split (c_str line) ' ').take 3) := by
  refine ⟨?_, ?_, fun line extra h => take_split_append_extra line extra 8 h,
    fun line extra h => take_split_append_extra line extra 3 h⟩
  · intro h
    rw [loadTrajectoryFromTxtTUM_of_lines sl fs' filepath content' _ hopen' rfl,
      loadTrajectoryFromTxtTUM_of_lines sl fs filepath content _ hopen rfl]
    exact loadTrajectoryLoop_first_tokens sl _ _ h []
  · intro h
    rw [loadSurfacePointsFromTxt_of_lines sl fs' filepath content' _ hopen' rfl,
      loadSurfacePointsFromTxt_of_lines sl fs filepath content _ hopen rfl]
    exact loadSurfaceLoop_first_tokens sl filepath _ _ h []

/-- The hypotheses of C16 hold for the file `data/traj.txt` of `demoFs` and of
`demoFsExtra`, where the lines carry the further tokens `extra tokens` and `99`:
the loader returns the same map for both. -/
theorem trailing_tokens_are_ignored_witness :
    demoFs "data/traj.txt" = some "10 1 2 3 0 0 0 1\n20 4 5 6 1 0 0 0\n" ∧
    demoFsExtra "data/traj.txt" =
      some "10 1 2 3 0 0 0 1 extra tokens\n20 4 5 6 1 0 0 0 99\n" ∧
    "10 1 2 3 0 0 0 1 extra tokens" = "10 1 2 3 0 0 0 1" ++ " " ++ "extra tokens" ∧
    loadTrajectoryFromTxtTUM intLib demoFsExtra "data/traj.txt" =
      loadTrajectoryFromTxtTUM intLib demoFs "data/traj.txt" ∧
    loadTrajectoryFromTxtTUM intLib demoFsExtra "data/traj.txt" =
      .returned [(10, [[1, 0, 0, 1], [0, 1, 0, 2], [0, 0, 1, 3]]),
        (20, [[1, 0, 0, 4], [0, -1, 0, 5], [0, 0, -1, 6]])] := by
  have h := (trailing_tokens_are_ignored intLib demoFs demoFsExtra "data/traj.txt"
    "10 1 2 3 0 0 0 1\n20 4 5 6 1 0 0 0\n"
    "10 1 2 3 0 0 0 1 extra tokens\n20 4 5 6 1 0 0 0 99\n" (by decide) (by decide)).1
    (List.Forall₂.cons (by decide) (List.Forall₂.cons (by decide) List.Forall₂.nil))
  refine ⟨by decide, by decide, by decide, h, ?_⟩
  rw [h]
  decide

end realm
